import Mathlib

/-!
Verification of the Prestige_Report story pipeline
(`scripts/story_generator_03.py` and `scripts/story_generator.py`).

Texts are modelled as `List Char`.  Python string operations
(`str.strip`, `str.split`, `re.sub`, `re.search`, `re.match`) are
translated into executable Lean functions specialised to the exact
patterns appearing in the source.
-/

namespace Prestige

abbrev Cs := List Char

/-- Characters stripped by Python `str.strip()` with no argument. -/
def pyWs (c : Char) : Bool :=
  c = ' ' || c = '\t' || c = '\n' || c = '\r' || c = '\x0b' || c = '\x0c'

/-- Python `s.strip()`. -/
def pyStrip (s : Cs) : Cs :=
  ((s.dropWhile pyWs).reverse.dropWhile pyWs).reverse

/-- Python `s.split("\n")`: split on single newlines, keeping empty pieces. -/
def splitNl : Cs → List Cs
  | [] => [[]]
  | c :: cs =>
    if c = '\n' then [] :: splitNl cs
    else
      match splitNl cs with
      | [] => [[c]]
      | g :: gs => (c :: g) :: gs

/-- `isPre pat s`: `pat` is a prefix of `s` (the way a regex literal matches
at the current position). -/
def isPre : Cs → Cs → Bool
  | [], _ => true
  | _ :: _, [] => false
  | p :: ps, c :: cs => p = c && isPre ps cs

/-- Case-insensitive prefix test (for patterns compiled with `re.IGNORECASE`). -/
def isPreCI : Cs → Cs → Bool
  | [], _ => true
  | _ :: _, [] => false
  | p :: ps, c :: cs => p.toLower = c.toLower && isPreCI ps cs

/-- Python `sub in s` (substring containment). -/
def hasSub (pat : Cs) : Cs → Bool
  | [] => isPre pat []
  | c :: cs => isPre pat (c :: cs) || hasSub pat cs

/-- Number of positions of `s` at which `pat` occurs (for the non-empty,
non-self-overlapping patterns used here this is the occurrence count). -/
def countOcc (pat : Cs) : Cs → Nat
  | [] => 0
  | c :: cs => (if isPre pat (c :: cs) then 1 else 0) + countOcc pat cs

/-- Python `s.split(sep)` for a non-empty separator `sep`:
non-overlapping left-to-right splitting (fuel-based recursion, fuel is
always at least the remaining length). -/
def splitSubF (pat : Cs) : Nat → Cs → List Cs
  | _, [] => [[]]
  | 0, s => [s]
  | fuel + 1, c :: cs =>
    if isPre pat (c :: cs) then
      [] :: splitSubF pat fuel (List.drop (pat.length - 1) cs)
    else
      match splitSubF pat fuel cs with
      | [] => [[c]]
      | g :: gs => (c :: g) :: gs

/-- Python `s.split(sep)` for a non-empty separator. -/
def splitSub (pat : Cs) (s : Cs) : List Cs := splitSubF pat s.length s

/-- Length of the maximal run of Python-`\s` characters at the head. -/
def wsRun : Cs → Nat
  | [] => 0
  | c :: cs => if pyWs c then wsRun cs + 1 else 0

/-- Length of the maximal run of `'\n'` characters at the head. -/
def nlRun : Cs → Nat
  | [] => 0
  | c :: cs => if c = '\n' then nlRun cs + 1 else 0

/-- Index of the first `'\n'`, if any. -/
def firstNl : Cs → Option Nat
  | [] => none
  | c :: cs => if c = '\n' then some 0 else (firstNl cs).map (· + 1)

/-- Leading decimal-digit run (the `\d+` of an anchored numeric match). -/
def digitRun : Cs → Cs
  | [] => []
  | c :: cs => if c.isDigit then c :: digitRun cs else []

/-- Numeric value of a digit string (Python `int`). -/
def natOfDigits (ds : Cs) : Nat :=
  ds.foldl (fun a c => a * 10 + (c.toNat - 48)) 0

/-- Convert a Lean string literal to our character-list texts. -/
def lit (s : String) : Cs := s.data

/-- Fuel-based core of `subA` (fuel is always at least the remaining
length, so the fuel-exhausted branch is never taken in practice). -/
def subAF (m : Cs → Option Nat) (r : Cs) : Nat → Cs → Cs
  | _, [] => []
  | 0, s => s
  | fuel + 1, c :: cs =>
    match m (c :: cs) with
    | some (n + 1) => r ++ subAF m r fuel (List.drop n cs)
    | _ => c :: subAF m r fuel cs

/-- `re.sub(pattern, repl, s)` for a pattern whose matches always consume at
least one character: `m` returns the length of the match at the current
position; matched spans are replaced by `r` and scanning resumes after the
match (replacements are not rescanned). -/
def subA (m : Cs → Option Nat) (r : Cs) (s : Cs) : Cs := subAF m r s.length s

/-- `re.search(pattern, s) is not None` for the same matcher shape. -/
def hasMatchA (m : Cs → Option Nat) : Cs → Bool
  | [] => (m []).isSome
  | c :: cs => (m (c :: cs)).isSome || hasMatchA m cs

/-- Fuel-based core of `subMulti`. -/
def subMultiF (m : Cs → Option Nat) (r : Cs) : Nat → Bool → Cs → Cs
  | _, _, [] => []
  | 0, _, s => s
  | fuel + 1, atStart, c :: cs =>
    if atStart then
      match m (c :: cs) with
      | some (n + 1) =>
        r ++ subMultiF m r fuel
          (List.getLast? (List.take (n + 1) (c :: cs)) = some '\n')
          (List.drop n cs)
      | _ => c :: subMultiF m r fuel (c = '\n') cs
    else c :: subMultiF m r fuel (c = '\n') cs

/-- `re.sub` for a `re.MULTILINE` pattern anchored with `^`: the matcher is
tried only at position 0 and right after each `'\n'`.  After a match,
scanning resumes at its end; whether that position is a line start is read
off the last consumed character. -/
def subMulti (m : Cs → Option Nat) (r : Cs) (atStart : Bool) (s : Cs) : Cs :=
  subMultiF m r s.length atStart s

/-! ### ProseFormatter (`story_generator_03.py`, `save_to_website`, lines 436-500)

The story text is stripped, two `re.sub` passes remove selection-announcement
lines and leading-title lines, the result is split into paragraphs, and the
paragraphs are rendered to `<p>` fragments with a `continue-reading` anchor.
-/
/-- One of the verb alternatives of `choice_pattern`
(`choose|chose|select|picked|am\s+choosing|am\s+going\s+with|decided\s+on|will\s+go\s+with`),
tried in the pattern's order with `\s+` as a maximal whitespace run (each
`\s+` is followed by a letter, so the greedy run is deterministic).
Returns the number of characters consumed. -/
def choiceVerb (s : Cs) : Option Nat :=
  let litW (w : String) (t : Cs) : Option Nat :=
    if isPreCI (lit w) t then some (lit w).length else none
  let seq2 (a b : String) (t : Cs) : Option Nat := do
    let n1 ← litW a t
    let t1 := List.drop n1 t
    let w := wsRun t1
    if w = 0 then none else
    let n2 ← litW b (List.drop w t1)
    pure (n1 + w + n2)
  let seq3 (a b c : String) (t : Cs) : Option Nat := do
    let n1 ← seq2 a b t
    let t1 := List.drop n1 t
    let w := wsRun t1
    if w = 0 then none else
    let n2 ← litW c (List.drop w t1)
    pure (n1 + w + n2)
  (litW "choose" s).orElse fun _ =>
  (litW "chose" s).orElse fun _ =>
  (litW "select" s).orElse fun _ =>
  (litW "picked" s).orElse fun _ =>
  (seq2 "am" "choosing" s).orElse fun _ =>
  (seq3 "am" "going" "with" s).orElse fun _ =>
  (seq2 "decided" "on" s).orElse fun _ =>
  seq3 "will" "go" "with" s

/-- The tail `[^\n]*\n+` of `choice_pattern`: the rest of the current line
followed by at least one newline.  Fails (as the regex does) when the line
is not terminated by a newline. -/
def restOfLineNl (s : Cs) : Option Nat :=
  match firstNl s with
  | none => none
  | some q => some (q + nlRun (List.drop q s))

/-- Matcher for `choice_pattern`
`^(I\s+(verb…)|Selected|Chosen|Idea\s+(\#|\d+))[^\n]*\n+`
(with `re.IGNORECASE`), at a line start. -/
def choiceMatch (s : Cs) : Option Nat :=
  let headLen : Option Nat :=
    (match s with
     | c :: cs =>
       if c.toLower = 'i' then
         let w := wsRun cs
         if w = 0 then none
         else (choiceVerb (List.drop w cs)).map (fun v => 1 + w + v)
       else none
     | [] => none).orElse fun _ =>
    (if isPreCI (lit "Selected") s then some 8 else none).orElse fun _ =>
    (if isPreCI (lit "Chosen") s then some 6 else none).orElse fun _ =>
    (if isPreCI (lit "Idea") s then
       let t := List.drop 4 s
       let w := wsRun t
       if w = 0 then none
       else
         match List.drop w t with
         | '#' :: _ => some (4 + w + 1)
         | t2 => let d := digitRun t2
                 if d = [] then none else some (4 + w + d.length)
     else none)
  match headLen with
  | none => none
  | some n => (restOfLineNl (List.drop n s)).map (n + ·)

/-- First alternative of `title_pattern`, `#\s+.*?\n+`: a `'#'`, at least one
whitespace character (greedy, so tried from the maximal run downwards), a
lazy non-newline stretch, then a maximal newline run. -/
def titleAlt1 (s : Cs) : Option Nat :=
  match s with
  | '#' :: t =>
    let rec tryJ : Nat → Option Nat
      | 0 => none
      | j + 1 =>
        let rest := List.drop (j + 1) t
        match firstNl rest with
        | some q => some (1 + (j + 1) + q + nlRun (List.drop q rest))
        | none => tryJ j
    tryJ (wsRun t)
  | _ => none

/-- Character class `[A-Z\s:]` of the second `title_pattern` alternative. -/
def titleClass (c : Char) : Bool :=
  ('A' ≤ c && c ≤ 'Z') || pyWs c || c = ':'

/-- Maximal run of `titleClass` characters. -/
def classRun : Cs → Nat
  | [] => 0
  | c :: cs => if titleClass c then classRun cs + 1 else 0

/-- Second alternative of `title_pattern`, `[A-Z\s:]{10,}$\n+`: at least ten
class characters (greedy, backtracking downwards) ending at a line end,
then a maximal newline run. -/
def titleAlt2 (s : Cs) : Option Nat :=
  let rec tryM : Nat → Option Nat
    | 0 => none
    | m + 1 =>
      if m + 1 < 10 then none
      else
        match List.drop (m + 1) s with
        | '\n' :: _ => some ((m + 1) + nlRun (List.drop (m + 1) s))
        | _ => tryM m
  tryM (classRun s)

/-- Matcher for `title_pattern` `^(#\s+.*?\n+|[A-Z\s:]{10,}$\n+)` at a line
start (`re.MULTILINE`). -/
def titleMatch (s : Cs) : Option Nat :=
  (titleAlt1 s).orElse fun _ => titleAlt2 s

/-- `line.startswith(pfx)`. -/
def startsW (pfx : String) (s : Cs) : Bool := isPre (lit pfx) s

/-- `re.match(r'^(Based on|I will use|I have chosen)', line, re.IGNORECASE)`. -/
def midSkip (s : Cs) : Bool :=
  isPreCI (lit "Based on") s || isPreCI (lit "I will use") s ||
    isPreCI (lit "I have chosen") s

/-- The main paragraph-building loop over the processed story lines
(`story_generator_03.py` lines 448-474). -/
def buildParasLoop : List Cs → Cs → List Cs → List Cs
  | [], para, acc => if para = [] then acc else acc ++ [para]
  | l :: ls, para, acc =>
    let line := pyStrip l
    if line = [] then
      if para = [] then buildParasLoop ls [] acc
      else buildParasLoop ls [] (acc ++ [para])
    else if startsW "#" line || startsW "---" line || startsW "===" line then
      buildParasLoop ls para acc
    else if midSkip line then
      buildParasLoop ls para acc
    else if para = [] then buildParasLoop ls line acc
    else buildParasLoop ls (para ++ ' ' :: line) acc

/-- The processed story text: `story.strip()` with `choice_pattern` and then
`title_pattern` substituted away (lines 436-445). -/
def processedStory (story : Cs) : Cs :=
  subMulti titleMatch [] true (subMulti choiceMatch [] true (pyStrip story))

/-- The fallback paragraph split (line 479):
`[p.strip() for p in story_text.split("\n\n") if p.strip()]` — note that it
runs on the processed `story_text`, not on the original story. -/
def blankSplit (t : Cs) : List Cs :=
  ((splitSub (lit "\n\n") t).map pyStrip).filter (· ≠ [])

/-- The formatter's final paragraph list (lines 448-479). -/
def paragraphsOf (story : Cs) : List Cs :=
  let t := processedStory story
  let ps := buildParasLoop (splitNl t) [] []
  if ps = [] then blankSplit t else ps

/-- Rendering to HTML (lines 482-500): `story_content` as the code builds it. -/
def storyContent (ps : List Cs) : Cs :=
  match ps with
  | [] => lit "<p>No content available.</p>"
  | [p] => lit "<p id=\"continue-reading\">" ++ p ++ lit "</p>\n"
  | p0 :: p1 :: rest =>
    lit "<p>" ++ p0 ++ lit "</p>\n" ++
    lit "<p id=\"continue-reading\">" ++ p1 ++ lit "</p>\n" ++
    (rest.map (fun p => lit "<p>" ++ p ++ lit "</p>\n")).flatten

/-- The same branch structure as `storyContent`, recording each rendered
paragraph together with whether it carries the `continue-reading` anchor. -/
def renderedParas (ps : List Cs) : List (Cs × Bool) :=
  match ps with
  | [] => [(lit "No content available.", false)]
  | [p] => [(p, true)]
  | p0 :: p1 :: rest => (p0, false) :: (p1, true) :: rest.map (fun p => (p, false))

/-- Index of the anchor-bearing rendered paragraph, if any. -/
def anchorIndex (ps : List Cs) : Option Nat :=
  (renderedParas ps).findIdx? (fun pb => pb.2)

/-- Spec wording for the fallback of §4.3: blank-line-delimited blocks of the
ORIGINAL unstripped story text ("splitting the ORIGINAL unstripped text on
blank-line-delimited blocks"). -/
def specOriginalBlankSplit (story : Cs) : List Cs :=
  ((splitSub (lit "\n\n") story).map pyStrip).filter (· ≠ [])

/-! ### IdeaListParser (`story_generator_03.py`, `write_feature`, lines 98-157) -/
/-- `re.match(r'^\d+\.', line)`: a leading digit run followed by `'.'`. -/
def numberedLine (l : Cs) : Bool :=
  let d := digitRun l
  !d.isEmpty && (List.drop d.length l).headD ' ' == '.'

/-- Python `line.split('.', 1)`: the pieces before and after the first dot
(the whole line and nothing when there is no dot). -/
def splitDot1 (l : Cs) : Cs × Cs :=
  match splitSub (lit ".") l with
  | [] => (l, [])
  | [a] => (a, [])
  | a :: rest => (a, (rest.intersperse (lit ".")).flatten)

/-- The stripped, non-empty idea lines
(`[line.strip() for line in ideas.split('\n') if line.strip()]`). -/
def ideaLines (ideas : Cs) : List Cs :=
  ((splitNl ideas).map pyStrip).filter (· ≠ [])

/-- The idea-collecting loop (lines 102-122).  State: the current idea
number and text being collected and the accumulated list; a numbered line
flushes the previous idea only when its collected text is non-empty. -/
def ideaLoop : List Cs → Option Nat → Cs → List (Nat × Cs) → List (Nat × Cs)
  | [], curNum, curIdea, acc =>
    match curNum with
    | some n => if curIdea ≠ [] then acc ++ [(n, curIdea)] else acc
    | none => acc
  | l :: ls, curNum, curIdea, acc =>
    if numberedLine l then
      let acc2 :=
        match curNum with
        | some n => if curIdea ≠ [] then acc ++ [(n, curIdea)] else acc
        | none => acc
      let p := splitDot1 l
      ideaLoop ls (some (natOfDigits p.1)) (pyStrip p.2) acc2
    else
      match curNum with
      | some _ => ideaLoop ls curNum (curIdea ++ ' ' :: l) acc
      | none => ideaLoop ls curNum curIdea acc

/-- `idea_list` for a raw ideas text. -/
def ideaList (ideas : Cs) : List (Nat × Cs) :=
  ideaLoop (ideaLines ideas) none [] []

/-- Python-dict insertion on an association list: an existing key keeps its
position but gets the new value; a new key is appended. -/
def pyDictInsert {α : Type} (k : Nat) (v : α) : List (Nat × α) → List (Nat × α)
  | [] => [(k, v)]
  | (k0, v0) :: rest =>
    if k0 = k then (k0, v) :: rest else (k0, v0) :: pyDictInsert k v rest

/-- `idea_dict = {num: text for num, text in idea_list}`. -/
def ideaDict (ideas : Cs) : List (Nat × Cs) :=
  (ideaList ideas).foldl (fun d p => pyDictInsert p.1 p.2 d) []

/-- `dict.get(k, default)` on the association list. -/
def dictGet (d : List (Nat × Cs)) (k : Nat) (dflt : Cs) : Cs :=
  match d.find? (fun p => p.1 = k) with
  | some p => p.2
  | none => dflt

/-- `re.search(r'"([^"]+)"', text)`: the first quote that is followed by at
least one non-quote character and a closing quote; returns the quoted
content. -/
def findQuoted : Cs → Option Cs
  | [] => none
  | c :: cs =>
    if c = '"' then
      let run := cs.takeWhile (· ≠ '"')
      if !run.isEmpty && (List.drop run.length cs).headD ' ' == '"' then some run
      else findQuoted cs
    else findQuoted cs

/-- Matcher for `r'"[^"]+":\s*'` (used by
`re.sub(r'"[^"]+":\s*', '', text)`): a quoted non-empty segment followed by
a colon and greedy whitespace. -/
def quotedColonMatch (s : Cs) : Option Nat :=
  match s with
  | '"' :: cs =>
    let run := cs.takeWhile (· ≠ '"')
    if !run.isEmpty && (List.drop run.length cs).headD ' ' == '"' then
      match List.drop (run.length + 1) cs with
      | ':' :: rest => some (1 + run.length + 1 + 1 + wsRun rest)
      | _ => none
    else none
  | _ => none

/-- Parsed title/description of one idea text (lines 133-157): a quoted
title, else a split at the first colon, else no parsed entry. -/
def parseIdeaText (text : Cs) : Option (Cs × Cs) :=
  match findQuoted text with
  | some title => some (title, pyStrip (subA quotedColonMatch [] text))
  | none =>
    if hasSub (lit ":") text then
      let p := splitSub (lit ":") text
      some (pyStrip (p.headD []),
            pyStrip ((p.tail.intersperse (lit ":")).flatten))
    else none

/-- `parsed_ideas`: idea number → (title, description) for the ideas whose
text yields a parsed title (dict built in list order, lines 132-157). -/
def parsedIdeas (ideas : Cs) : List (Nat × (Cs × Cs)) :=
  (ideaList ideas).foldl
    (fun d p =>
      match parseIdeaText p.2 with
      | some td => pyDictInsert p.1 td d
      | none => d)
    []

/-! ### SelectionExtractor (`story_generator_03.py` lines 173-197,
`story_generator.py` lines 116-137) -/
/-- The chosen-number capture at one position for
`I(?:'ve)? (?:chose|choose|select|picked|am choosing) idea (?:number )?(\d+)`
(`re.IGNORECASE`; the spaces are literal single spaces). -/
def selOneAt (s : Cs) : Option Nat :=
  match s with
  | c :: cs =>
    if c.toLower = 'i' then
      let afterI :=
        match cs with
        | '\'' :: v :: e :: rest =>
          if v.toLower = 'v' && e.toLower = 'e' then rest else cs
        | _ => cs
      match afterI with
      | ' ' :: t =>
        let tryVerb (w : String) : Option Nat :=
          if isPreCI (lit w) t then
            let t2 := List.drop (lit w).length t
            if isPreCI (lit " idea ") t2 then
              let t3 := List.drop 6 t2
              let t4 :=
                if isPreCI (lit "number ") t3 then List.drop 7 t3 else t3
              let d := digitRun t4
              if d.isEmpty then
                -- `(?:number )?` is optional: retry without it
                let d2 := digitRun t3
                if d2.isEmpty then none else some (natOfDigits d2)
              else some (natOfDigits d)
            else none
          else none
        (tryVerb "chose").orElse fun _ =>
        (tryVerb "choose").orElse fun _ =>
        (tryVerb "select").orElse fun _ =>
        (tryVerb "picked").orElse fun _ =>
        tryVerb "am choosing"
      | _ => none
    else none
  | [] => none

/-- `re.search` of the first selection pattern over the whole text. -/
def selOne : Cs → Option Nat
  | [] => none
  | c :: cs => (selOneAt (c :: cs)).orElse fun _ => selOne cs

/-- The capture at one position for `Idea (?:number )?(\d+):`
(`re.IGNORECASE`). -/
def selTwoAt (s : Cs) : Option Nat :=
  if isPreCI (lit "Idea ") s then
    let t := List.drop 5 s
    let t2 := if isPreCI (lit "number ") t then List.drop 7 t else t
    let d := digitRun t2
    let withColon (u : Cs) (ds : Cs) : Option Nat :=
      if ds.isEmpty then none
      else if (List.drop ds.length u).headD ' ' == ':' then some (natOfDigits ds)
      else none
    (withColon t2 d).orElse fun _ =>
      -- `(?:number )?` optional: retry without consuming "number "
      withColon t (digitRun t)
  else none

/-- `re.search` of the second selection pattern. -/
def selTwo : Cs → Option Nat
  | [] => none
  | c :: cs => (selTwoAt (c :: cs)).orElse fun _ => selTwo cs

/-- `idea_number` (lines 175-179): first pattern, second pattern, default 1. -/
def ideaNumber (story : Cs) : Nat :=
  match selOne story with
  | some n => n
  | none =>
    match selTwo story with
    | some n => n
    | none => 1

/-- The metadata record returned by `write_feature` in
`story_generator_03.py` (idea number, headline, description, chosen idea
raw text). -/
structure Selection where
  ideaNumber : Nat
  headline : Cs
  description : Cs
  chosenIdea : Cs
deriving DecidableEq, Repr

/-- `write_feature`'s selection result (lines 124-197): `none` when no
ideas were parsed (the "no ideas found" failure), otherwise the headline
from the parsed idea's title when available, else the synthesized
`"Vanity Fair Feature: Idea {n}"` with the raw idea text as description. -/
def extract03 (ideas story : Cs) : Option Selection :=
  if (ideaList ideas).isEmpty then none
  else
    let n := ideaNumber story
    some <|
      match (parsedIdeas ideas).find? (fun p => p.1 = n) with
      | some p =>
        { ideaNumber := n, headline := p.2.1, description := p.2.2,
          chosenIdea := dictGet (ideaDict ideas) n [] }
      | none =>
        { ideaNumber := n,
          headline := lit "Vanity Fair Feature: Idea " ++ (Nat.repr n).data,
          description := dictGet (ideaDict ideas) n [],
          chosenIdea := dictGet (ideaDict ideas) n [] }

/-! Headline extraction of the first variant
(`story_generator.py` lines 124-137). -/
/-- One line matched against `^#+ (.+)$`: a non-empty run of `'#'`, a
space, then a non-empty rest of line; returns the captured group. -/
def mdHeading (l : Cs) : Option Cs :=
  let hashes := l.takeWhile (· = '#')
  if hashes.isEmpty then none
  else
    match List.drop hashes.length l with
    | ' ' :: rest => if rest.isEmpty then none else some rest
    | _ => none

/-- `re.search(r"^#+ (.+)$", text, re.MULTILINE)`: the first line that is a
markdown heading. -/
def firstMdHeading (story : Cs) : Option Cs :=
  (splitNl story).findSome? mdHeading

/-- Number of uppercase characters (`c.isupper()` over ASCII). -/
def upperCount (l : Cs) : Nat := (l.filter (fun c => 'A' ≤ c && c ≤ 'Z')).length

/-- The "shouted headline" test of `story_generator.py` lines 130-133:
raw length over 20, stripped line non-empty and not ending in sentence
punctuation, and strictly more than 30% uppercase characters. -/
def shoutLine (l : Cs) : Bool :=
  let st := pyStrip l
  !l.isEmpty && !st.isEmpty && decide (20 < l.length) &&
    !(st.getLast? == some '.' || st.getLast? == some '?' || st.getLast? == some '!') &&
    decide (3 * l.length < 10 * upperCount l)

/-- The scan of the first 10 raw lines for a shouted headline; returns the
stripped line. -/
def shoutScan (story : Cs) : Option Cs :=
  ((splitNl story).take 10).findSome? fun l =>
    if shoutLine l then some (pyStrip l) else none

/-- The headline produced by `story_generator.py` lines 124-137 (the idea
number is the captured string, or `"?"`). -/
def headlineOld (story : Cs) (ideaNumberText : Cs) : Cs :=
  match firstMdHeading story with
  | some t => t
  | none =>
    match shoutScan story with
    | some l => l
    | none => lit "Vanity Fair Feature: Idea " ++ ideaNumberText

/-! ### C4: key set of the idea mapping -/
/-- Spec wording: "the set of leading numbers appearing at line starts in
the input" — the numbers of all (stripped, non-empty) lines matching
`^\d+\.`, in order of appearance. -/
def specLeadingNumbers (ideas : Cs) : List Nat :=
  ((ideaLines ideas).filter numberedLine).map (fun l => natOfDigits (digitRun l))

/-- A numbered line has a body when text remains on the line after the dot
or at least one continuation line follows before the next numbered line. -/
def hasBody (l : Cs) (ls : List Cs) : Bool :=
  !(pyStrip (splitDot1 l).2).isEmpty ||
    !((ls.takeWhile (fun x => !numberedLine x)).isEmpty)

/-- Reference: the numbers of the numbered lines whose collected idea text
is non-empty, in order of appearance. -/
def wellFormedNums : List Cs → List Nat
  | [] => []
  | l :: ls =>
    if numberedLine l then
      if hasBody l ls then natOfDigits (digitRun l) :: wellFormedNums ls
      else wellFormedNums ls
    else wellFormedNums ls

/-- First-occurrence-order deduplication (the key order of a Python dict
built by successive insertion). -/
def dedupFirst (ns : List Nat) : List Nat :=
  ns.foldl (fun ks n => if n ∈ ks then ks else ks ++ [n]) []

/-! ### C5: headline extraction priority -/
/-- Spec wording of the claimed priority (§4.2): the parsed idea title, else
the first of the first ~10 lines that is a markdown heading or a shouted
headline, else the synthesized form with empty description. -/
def specHeadlinePriority (ideas story : Cs) : Cs × Cs :=
  let n := ideaNumber story
  match (parsedIdeas ideas).find? (fun p => p.1 = n) with
  | some p => (p.2.1, p.2.2)
  | none =>
    match ((splitNl story).take 10).findSome? (fun l =>
        match mdHeading l with
        | some t => some t
        | none => if shoutLine l then some (pyStrip l) else none) with
    | some t => (t, [])
    | none => (lit "Vanity Fair Feature: Idea " ++ (Nat.repr n).data, [])

/-! ### SlugFilenameGenerator (`story_generator_03.py`, lines 227-261) -/
/-- Python `\w` over ASCII: letters, digits, underscore. -/
def isWordChar (c : Char) : Bool := c.isAlphanum || c = '_'

/-- Characters KEPT by `re.sub(r'[^\w\s-]', '', s)`. -/
def slugKeep (c : Char) : Bool := isWordChar c || pyWs c || c = '-'

/-- `re.sub(r'[\s-]+', '-', s)`: each maximal run of whitespace or hyphens
becomes a single hyphen (structural scan with an in-run flag). -/
def collapseAux : Bool → Cs → Cs
  | _, [] => []
  | inRun, c :: cs =>
    if pyWs c || c = '-' then
      if inRun then collapseAux true cs else '-' :: collapseAux true cs
    else c :: collapseAux false cs

/-- Both slug substitutions applied to a lower-cased text. -/
def slugOf (s : Cs) : Cs :=
  collapseAux false ((s.map Char.toLower).filter slugKeep)

/-- Python `s.strip('-')`. -/
def stripHyphens (s : Cs) : Cs :=
  ((s.dropWhile (· = '-')).reverse.dropWhile (· = '-')).reverse

/-- `cleaned_headline` before the escalation (lines 227-231): slug of the
headline, truncated to 40 characters, hyphens stripped from the ends. -/
def cleanedHeadline (h : Cs) : Cs := stripHyphens ((slugOf h).take 40)

/-- The guard constant of line 234/246. -/
def genericSlug : Cs := lit "vanity-fair-feature-idea"

/-- The escalation guard `cleaned_headline == "vanity-fair-feature-idea" or
not cleaned_headline`. -/
def isGeneric (c : Cs) : Bool := c == genericSlug || c.isEmpty

/-- The story-line scan of lines 236-243: over the first 20 lines of the
stripped story, the first line longer than 15 characters (stripped) not
starting with `I choose` or `Idea` whose slug exceeds 10 characters. -/
def storyScanSlug (story : Cs) : Option Cs :=
  ((splitNl (pyStrip story)).take 20).findSome? fun line =>
    if decide (15 < (pyStrip line).length) && !startsW "I choose" line &&
        !startsW "Idea" line then
      let pot := slugOf line
      if decide (10 < pot.length) then some (stripHyphens (pot.take 40)) else none
    else none

/-- `re.sub(r'^\d+\.\s*', '', s)`: strip one leading `digits.whitespace`
prefix (the pattern is anchored, so at most one substitution). -/
def stripLeadNum (s : Cs) : Cs :=
  let d := digitRun s
  if !d.isEmpty && (List.drop d.length s).headD ' ' == '.' then
    let rest := List.drop (d.length + 1) s
    List.drop (wsRun rest) rest
  else s

/-- The full slug selection of lines 227-251: the headline slug, escalated
through the story-line scan and then the chosen idea text whenever the
current value is empty or equals the generic constant. -/
def chooseSlug (headline story chosenIdea : Cs) : Cs :=
  let c0 := cleanedHeadline headline
  if isGeneric c0 then
    let c1 := match storyScanSlug story with | some s => s | none => c0
    if isGeneric c1 then
      if !chosenIdea.isEmpty then cleanedHeadline (stripLeadNum chosenIdea)
      else c1
    else c1
  else c0

/-- The candidate filename for suffix `k` (`k = 0` is the suffix-free
first candidate of line 254). -/
def candName (dateStr slug : Cs) (k : Nat) : Cs :=
  dateStr ++ '-' :: slug ++
    (if k = 0 then [] else '-' :: (Nat.repr k).data) ++ lit ".html"

/-- The collision loop of lines 257-261: successive numeric suffixes until
the name is free (fuel-based; the fuel always suffices). -/
def pickNameLoop (dateStr slug : Cs) (used : List Cs) : Nat → Nat → Cs
  | k, 0 => candName dateStr slug k
  | k, fuel + 1 =>
    if candName dateStr slug k ∈ used then
      pickNameLoop dateStr slug used (k + 1) fuel
    else candName dateStr slug k

/-- The generated filename: the first free candidate. -/
def pickName (dateStr slug : Cs) (used : List Cs) : Cs :=
  pickNameLoop dateStr slug used 0 (used.length + 1)

/-- Decimal value of the fold over a digit list, with starting accumulator
(`natOfDigits` is `foldVal 0`). -/
def foldVal (a : Nat) (ds : Cs) : Nat :=
  ds.foldl (fun a c => a * 10 + (c.toNat - 48)) a

/-! ### DocumentMerger (`story_generator_03.py`, `save_to_website`,
lines 543-614)

The index document is updated by three pattern substitutions: a one-time
archive-skeleton injection guarded by marker presence, a featured-card
region replacement, and a prepend just after the archive-grid marker. -/
/-- The archive container marker `<div class="story-grid">`. -/
def marker : Cs := lit "<div class=\"story-grid\">"

/-- The featured-card opener `<div class="story-card featured">`. -/
def featOpener : Cs := lit "<div class=\"story-card featured\">"

/-- The featured-section wrapper opener. -/
def secOpen : Cs := lit "<section class=\"featured-story\">"

/-- The main-content opener. -/
def mainOpen : Cs := lit "<main class=\"container\">"

/-- The archive-skeleton replacement text of lines 579-587. -/
def archREPL : Cs :=
  lit "</section>\n\n    <section class=\"story-archive\">\n        <h2 class=\"section-title\">Recent Stories</h2>\n        <div class=\"story-grid\">\n        </div>\n    </section>\n\n</main>"

/-- The four interpolated fields of the rendered cards. -/
structure CardMeta where
  h : Cs
  d : Cs
  s : Cs
  f : Cs
deriving DecidableEq

/-- `short_description` (lines 545-547). -/
def shortDesc (s : Cs) : Cs :=
  if 150 < s.length then s.take 147 ++ lit "..." else s

/-- The eight-space-indented leading newline of the featured fragment. -/
def FH : Cs := lit "\n        "

/-- The literal pieces of the `featured_story` f-string (lines 549-560),
split at the interpolation points; the piece after the description is
further split at the two `</div>` candidates the featured regex scans. -/
def FL1 : Cs := lit "\n            <h2 class=\"story-title\">"

def FL2 : Cs := lit "</h2>\n            <div class=\"story-meta\">\n                <span class=\"story-date\">"

def FL3a : Cs := lit "</span>\n            "

def FDDF : Cs := lit "</div>\n            <div class=\"story-excerpt\">\n                <p>"

def FL4 : Cs := lit "</p>\n                <a href=\"stories/"

def FL5a : Cs := lit "#continue-reading\" class=\"read-more\">Continue reading →</a>\n            "

def FDDS : Cs := lit "</div>\n        </div>"

/-- The featured card from its opening div through its closing div — the
exact span the featured regex matches. -/
def fsCore (m : CardMeta) : Cs :=
  featOpener ++ FL1 ++ m.h ++ FL2 ++ m.d ++ FL3a ++ FDDF ++ shortDesc m.s
    ++ FL4 ++ m.f ++ FL5a ++ FDDS

/-- `featured_story` (lines 549-560), exactly the code's f-string. -/
def featuredStory (m : CardMeta) : Cs := FH ++ fsCore m ++ lit "\n"

/-- The literal pieces of the `story_card` f-string (lines 563-572), split
at the interpolation points. -/
def SC1 : Cs := lit "\n                <div class=\"story-card\">\n                    <h3 class=\"story-title\">"

def SC2 : Cs := lit "</h3>\n                    <div class=\"story-meta\">\n                        <span class=\"story-date\">"

def SC3 : Cs := lit "</span>\n                    </div>\n                    <p class=\"story-excerpt\">"

def SC4 : Cs := lit "...</p>\n                    <a href=\"stories/"

def SC5 : Cs := lit "#continue-reading\" class=\"read-more\">Continue reading →</a>\n                </div>\n"

/-- `story_card` (lines 563-572), exactly the code's f-string. -/
def storyCard (m : CardMeta) : Cs :=
  SC1 ++ m.h ++ SC2 ++ m.d ++ SC3 ++ m.s ++ SC4 ++ m.f ++ SC5

/-- Matcher for `</section>\s*\s*</main>` (the bootstrap pattern). -/
def matchSecMain (s : Cs) : Option Nat :=
  if isPre (lit "</section>") s then
    let t := List.drop 10 s
    let w := wsRun t
    if isPre (lit "</main>") (List.drop w t) then some (10 + w + 7) else none
  else none

/-- The lazy scan of `[\s\S]*?</div>\s*</div>`: the first `</div>` that is
followed (after a maximal whitespace run) by another `</div>`; returns the
length up to the end of that second `</div>`. -/
def findDivDiv : Cs → Option Nat
  | [] => none
  | c :: cs =>
    if isPre (lit "</div>") (c :: cs) then
      let t := List.drop 6 (c :: cs)
      let w := wsRun t
      if isPre (lit "</div>") (List.drop w t) then some (6 + w + 6)
      else (findDivDiv cs).map (· + 1)
    else (findDivDiv cs).map (· + 1)

/-- Matcher for `<div class="story-card featured">[\s\S]*?</div>\s*</div>`. -/
def matchFeatured (s : Cs) : Option Nat :=
  if isPre featOpener s then
    (findDivDiv (List.drop featOpener.length s)).map (featOpener.length + ·)
  else none

/-- Matcher for `<section class="featured-story">\s*`. -/
def matchFeatSection (s : Cs) : Option Nat :=
  if isPre secOpen s then some (secOpen.length + wsRun (List.drop secOpen.length s))
  else none

/-- Matcher for `<main class="container">\s*`. -/
def matchMainOpen (s : Cs) : Option Nat :=
  if isPre mainOpen s then some (mainOpen.length + wsRun (List.drop mainOpen.length s))
  else none

/-- Matcher for the literal marker. -/
def matchMarker (s : Cs) : Option Nat :=
  if isPre marker s then some marker.length else none

/-- The index update of lines 574-610: bootstrap the archive skeleton when
the marker is absent, replace (or inject) the featured card, and prepend
the new archive card right after the marker. -/
def mergeIndex (m : CardMeta) (doc : Cs) : Cs :=
  let doc1 := if hasSub marker doc then doc else subA matchSecMain archREPL doc
  let fs := featuredStory m
  let doc2 :=
    if hasMatchA matchFeatured doc1 then subA matchFeatured fs doc1
    else if hasMatchA matchFeatSection doc1 then
      subA matchFeatSection (secOpen ++ lit "\n" ++ fs ++ lit "\n") doc1
    else
      subA matchMainOpen
        (mainOpen ++ lit "\n\n" ++ secOpen ++ lit "\n" ++ fs ++ lit "\n</section>"
          ++ lit "\n\n") doc1
  if hasSub marker doc2 then subA matchMarker (marker ++ '\n' :: storyCard m) doc2
  else doc2

/-- Modelled from the spec: the initial listing document.  The repository's
`scripts/index.html` template is not under `src/`; §4.5 and §7 describe it
as a blank skeleton with a main-content region and a featured-section
wrapper, which the merger then bootstraps (the archive region is injected
on first merge). -/
def blankSkeleton : Cs :=
  lit "<main class=\"container\">\n    <section class=\"featured-story\">\n    </section>\n\n</main>"

/-- `("\n        ")^n`. -/
def padFH : Nat → Cs
  | 0 => []
  | n + 1 => FH ++ padFH n

/-- `("\n")^n`. -/
def padNL : Nat → Cs
  | 0 => []
  | n + 1 => '\n' :: padNL n

/-- Closed form of the document after the merges `ms` (newest first,
`ms = m :: rest`): one featured card (the newest), and the archive cards
newest-first between the marker and the archive tail. -/
def docAfter (m : CardMeta) (rest : List CardMeta) : Cs :=
  lit "<main class=\"container\">\n    <section class=\"featured-story\">\n"
  ++ padFH (rest.length + 1)
  ++ fsCore m
  ++ padNL (rest.length + 2)
  ++ lit "</section>\n\n    <section class=\"story-archive\">\n        <h2 class=\"section-title\">Recent Stories</h2>\n        "
  ++ marker
  ++ ((m :: rest).map (fun x => '\n' :: storyCard x)).flatten
  ++ lit "\n        </div>\n    </section>\n\n</main>"

/-- Folding a sequence of merges (oldest first) over the blank skeleton. -/
def mergeSeq (l : List CardMeta) : Cs :=
  l.foldl (fun doc m => mergeIndex m doc) blankSkeleton

/-- Interpolated fields free of markup (no `'<'`). -/
def cleanTxt (s : Cs) : Prop := ∀ c ∈ s, c ≠ '<'

/-- All four fields of a card are markup-free. -/
def cleanMeta (m : CardMeta) : Prop :=
  cleanTxt m.h ∧ cleanTxt m.d ∧ cleanTxt m.s ∧ cleanTxt m.f

/-! #### Scanning infrastructure: where a pattern can start -/
/-- A definite mismatch between `p` and `x` within their common length. -/
def mismatchWithin : Cs → Cs → Bool
  | [], _ => false
  | _ :: _, [] => false
  | pc :: ps, xc :: xs => pc ≠ xc || mismatchWithin ps xs

/-- No suffix of `a` can start an occurrence of `p`, whatever follows `a`. -/
def noPreWin (p : Cs) : Cs → Bool
  | [] => true
  | c :: cs => mismatchWithin p (c :: cs) && noPreWin p cs

/-- `p` cannot start at any position of `a` (continuations arbitrary). -/
def noPreAt (p a : Cs) : Prop :=
  ∀ i, i < a.length → ∀ b, isPre p (List.drop i a ++ b) = false

/-- `cleanTxt` from its decidable form. -/
def cleanB (s : Cs) : Bool := s.all (fun c => c ≠ '<')

/-! ### C7: slug escalation guard -/
/-- Spec wording of the claimed escalation (§4.4): when the headline slug is
empty or equals the slug of the synthetic fallback headline, use the
story-line scan, else the chosen idea text. -/
def specEscalatedSlug (story chosenIdea : Cs) : Cs :=
  match storyScanSlug story with
  | some s => s
  | none => cleanedHeadline (stripLeadNum chosenIdea)

/-- The decimal digit characters. -/
def digitChars : Cs := lit "0123456789"

/-! ### C1, C10: the merge invariant over whole sequences -/
/-- The archive-card opener `<div class="story-card">`. -/
def cardOpen : Cs := lit "<div class=\"story-card\">"

/-- The closed form over a nonempty merge history (newest first); the blank
skeleton for the empty history. -/
def docAfterL : List CardMeta → Cs
  | [] => blankSkeleton
  | m :: rest => docAfter m rest

/-- Sample clean cards used as witnesses. -/
def mA : CardMeta :=
  { h := lit "First Story", d := lit "May 01, 2025", s := lit "A tale.",
    f := lit "20250501-first-story.html" }

def mB : CardMeta :=
  { h := lit "Second Story", d := lit "May 02, 2025", s := lit "Another tale.",
    f := lit "20250502-second-story.html" }

/-- An adversarial card whose headline contains the archive marker. -/
def mbad : CardMeta :=
  { h := lit "<div class=\"story-grid\">", d := lit "May 03, 2025",
    s := lit "Bad.", f := lit "x.html" }

/-! ### C9: the no-ideas abort -/
/-- The persisted website state `save_to_website` updates: the story
filenames on disk and the listing document. -/
structure SiteState where
  storyNames : List Cs
  index : Cs
deriving DecidableEq, Repr

/-- `save_to_website` (lines 206-618) on the state: the slug is chosen from
the headline (escalating to the story text and the chosen idea for generic
slugs), the unique filename is picked against the existing names, the story
file is written (recorded here as the appended name; the story-page template
substitution only affects that file's contents and is not modelled further),
and the listing document is merged. -/
def saveToWebsite (dateStr humanDate story : Cs) (sel : Selection)
    (st : SiteState) : SiteState :=
  let fname := pickName dateStr (chooseSlug sel.headline story sel.chosenIdea)
    st.storyNames
  { storyNames := st.storyNames ++ [fname]
    index := mergeIndex
      { h := sel.headline, d := humanDate, s := sel.description, f := fname }
      st.index }

/-- `main` (lines 621-645): the ideas go to `write_feature`; when it reports
no story (`None`), the save step is skipped, otherwise `save_to_website`
runs on the state. -/
def runPipeline (ideas story dateStr humanDate : Cs) (st : SiteState) :
    SiteState × Option Selection :=
  match extract03 ideas story with
  | none => (st, none)
  | some sel => (saveToWebsite dateStr humanDate story sel st, some sel)

/-- With sufficient fuel, `subAF` does not depend on the exact fuel. -/
theorem subAF_congr (m : Cs → Option Nat) (r : Cs) :
    ∀ (f : Nat), ∀ (g : Nat) (s : Cs), s.length ≤ f → s.length ≤ g →
      subAF m r f s = subAF m r g s := by
  intro f
  induction f with
  | zero =>
    intro g s hf _
    have : s = [] := List.eq_nil_of_length_eq_zero (Nat.le_zero.mp hf)
    subst this
    cases g <;> rfl
  | succ f ih =>
    intro g s hf hg
    cases s with
    | nil => cases g <;> rfl
    | cons c cs =>
      cases g with
      | zero => exact absurd hg (by simp)
      | succ g =>
        simp only [subAF]
        cases hm : m (c :: cs) with
        | none => simp only; rw [ih g cs (by simpa using hf) (by simpa using hg)]
        | some n =>
          cases n with
          | zero => simp only; rw [ih g cs (by simpa using hf) (by simpa using hg)]
          | succ n =>
            simp only
            have hf2 : cs.length ≤ f := by
              have := hf; simp only [List.length_cons] at this; omega
            have hg2 : cs.length ≤ g := by
              have := hg; simp only [List.length_cons] at this; omega
            have hd : (List.drop n cs).length ≤ cs.length := by
              simp [List.length_drop]
            rw [ih g (List.drop n cs) (le_trans hd hf2) (le_trans hd hg2)]

/-- Unfolding equation of `subA` on a cons cell. -/
theorem subA_cons (m : Cs → Option Nat) (r : Cs) (c : Char) (cs : Cs) :
    subA m r (c :: cs) =
      (match m (c :: cs) with
       | some (n + 1) => r ++ subA m r (List.drop n cs)
       | _ => c :: subA m r cs) := by
  show subAF m r (cs.length + 1) (c :: cs) = _
  simp only [subAF]
  cases hm : m (c :: cs) with
  | none =>
    simp only
    rfl
  | some n =>
    cases n with
    | zero => rfl
    | succ n =>
      simp only [subA]
      rw [subAF_congr m r cs.length (List.drop n cs).length (List.drop n cs)
        (by simp [List.length_drop]) (le_refl _)]

/-- C3 (amended): the extractor is total (modelled by `extract03` returning
`some` whenever any idea parsed), and the returned headline is non-empty
provided every parsed idea title is non-empty; the synthesized fallback
headline is always non-empty. -/
theorem selection_headline_nonempty (ideas story : Cs) (sel : Selection)
    (ht : ∀ p ∈ parsedIdeas ideas, p.2.1 ≠ [])
    (h : extract03 ideas story = some sel) :
    sel.headline ≠ [] := by
  unfold extract03 at h
  by_cases he : (ideaList ideas).isEmpty
  · simp [he] at h
  · simp only [he, if_neg, Bool.false_eq_true, not_false_iff, ite_false,
      Option.some.injEq] at h
    rcases hf : (parsedIdeas ideas).find? (fun p => p.1 = ideaNumber story) with _ | p
    · rw [hf] at h
      subst h
      simp [lit]
    · rw [hf] at h
      subst h
      exact ht p (List.mem_of_find?_eq_some hf)

/-- Witness for `selection_headline_nonempty` on a concrete idea list with a
quoted title: the extracted selection is the parsed idea and its headline
is non-empty. -/
theorem selection_headline_nonempty_witness :
    Selection.headline
      { ideaNumber := 1, headline := lit "Rise of X",
        description := lit "a profile.",
        chosenIdea := lit "\"Rise of X\": a profile." } ≠ [] :=
  selection_headline_nonempty (lit "1. \"Rise of X\": a profile.") (lit "")
    { ideaNumber := 1, headline := lit "Rise of X",
      description := lit "a profile.",
      chosenIdea := lit "\"Rise of X\": a profile." }
    (by decide) (by decide)

/-- C3 counterexample: for the ideas text `1. : A story about things` the
colon-split title of idea 1 is empty, and with an empty story text the
extractor returns an EMPTY headline — the claim "the returned Selection has
a non-empty headline" fails. -/
theorem selection_empty_headline :
    (extract03 (lit "1. : A story about things") (lit "")).map Selection.headline
      = some [] := by
  decide

/-- `splitSub` on the single-character separator `"."` starts with the
maximal dot-free prefix. -/
theorem splitSubF_dot_head :
    ∀ (fuel : Nat) (l : Cs), l.length ≤ fuel →
      ∃ gs, splitSubF (lit ".") fuel l = l.takeWhile (· ≠ '.') :: gs := by
  intro fuel
  induction fuel with
  | zero =>
    intro l hl
    have : l = [] := List.eq_nil_of_length_eq_zero (Nat.le_zero.mp hl)
    subst this
    exact ⟨[], rfl⟩
  | succ fuel ih =>
    intro l hl
    cases l with
    | nil => exact ⟨[], rfl⟩
    | cons c cs =>
      by_cases hc : c = '.'
      · subst hc
        refine ⟨splitSubF (lit ".") fuel cs, ?_⟩
        simp [splitSubF, lit, isPre, List.takeWhile_cons]
      · obtain ⟨gs, hgs⟩ := ih cs (by simp only [List.length_cons] at hl; omega)
        refine ⟨gs, ?_⟩
        have hpre : isPre (lit ".") (c :: cs) = false := by
          simp [lit, isPre, Ne.symm hc]
        simp [splitSubF, hpre, hgs, List.takeWhile_cons, hc]

/-- The part of a line before its first dot is its maximal dot-free prefix. -/
theorem splitDot1_fst (l : Cs) : (splitDot1 l).1 = l.takeWhile (· ≠ '.') := by
  obtain ⟨gs, hgs⟩ := splitSubF_dot_head l.length l (le_refl _)
  unfold splitDot1 splitSub
  rw [hgs]
  cases gs <;> rfl

/-- When the character after the leading digit run is a dot, the maximal
dot-free prefix is exactly the digit run. -/
theorem takeWhile_ne_dot_eq_digitRun :
    ∀ l : Cs, (List.drop (digitRun l).length l).headD ' ' = '.' →
      l.takeWhile (· ≠ '.') = digitRun l := by
  intro l
  induction l with
  | nil => intro _; rfl
  | cons c cs ih =>
    intro h
    by_cases hc : c.isDigit
    · have hcd : ¬(c = '.') := by
        intro hcc; subst hcc; simp [Char.isDigit] at hc
      have hdr : digitRun (c :: cs) = c :: digitRun cs := by simp [digitRun, hc]
      rw [hdr] at h
      simp only [List.length_cons, List.drop_succ_cons] at h
      rw [hdr]
      simp [List.takeWhile_cons, hcd]
      have ih2 := ih h
      simp only [ne_eq, decide_not] at ih2
      exact ih2
    · have hdr : digitRun (c :: cs) = [] := by simp [digitRun, hc]
      rw [hdr] at h
      simp only [List.length_nil, List.drop_zero, List.headD_cons] at h
      subst h
      simp [List.takeWhile_cons, hdr]

/-- For a numbered line, the number parsed from the text before the first
dot is the number of the leading digit run. -/
theorem numberedLine_split_num (l : Cs) (hl : numberedLine l = true) :
    natOfDigits (splitDot1 l).1 = natOfDigits (digitRun l) := by
  rw [splitDot1_fst]
  unfold numberedLine at hl
  simp only [Bool.and_eq_true, beq_iff_eq] at hl
  rw [takeWhile_ne_dot_eq_digitRun l hl.2]

/-- Keys of a Python-dict insertion. -/
theorem pyDictInsert_keys {α : Type} (k : Nat) (v : α) (d : List (Nat × α)) :
    (pyDictInsert k v d).map Prod.fst =
      (if k ∈ d.map Prod.fst then d.map Prod.fst else d.map Prod.fst ++ [k]) := by
  induction d with
  | nil => simp [pyDictInsert]
  | cons p rest ih =>
    obtain ⟨k0, v0⟩ := p
    by_cases hk : k0 = k
    · subst hk
      simp [pyDictInsert]
    · simp only [pyDictInsert, if_neg hk, List.map_cons, ih]
      by_cases hmem : k ∈ rest.map Prod.fst
      · simp [hmem, Ne.symm hk]
      · simp [hmem, Ne.symm hk]

/-- Keys of the dict built by folding insertions. -/
theorem foldl_pyDictInsert_keys {α : Type} (l : List (Nat × α)) :
    ∀ (d : List (Nat × α)),
      ((l.foldl (fun d p => pyDictInsert p.1 p.2 d) d).map Prod.fst) =
        (l.map Prod.fst).foldl (fun ks n => if n ∈ ks then ks else ks ++ [n])
          (d.map Prod.fst) := by
  induction l with
  | nil => intro d; simp
  | cons p rest ih =>
    intro d
    simp only [List.foldl_cons, List.map_cons]
    rw [ih, pyDictInsert_keys]

/-- Invariant of `ideaLoop` in a collecting state: the idea being collected
is emitted exactly when its text is (or becomes) non-empty. -/
theorem ideaLoop_some_fst (ls : List Cs) :
    ∀ (n : Nat) (t : Cs) (acc : List (Nat × Cs)),
      (ideaLoop ls (some n) t acc).map Prod.fst =
        acc.map Prod.fst ++
        (if t ≠ [] ∨ ¬((ls.takeWhile (fun x => !numberedLine x)).isEmpty = true)
         then [n] else []) ++
        wellFormedNums ls := by
  induction ls with
  | nil =>
    intro n t acc
    by_cases ht : t = []
    · subst ht; simp [ideaLoop, wellFormedNums]
    · simp [ideaLoop, wellFormedNums, ht]
  | cons l ls ih =>
    intro n t acc
    by_cases hl : numberedLine l
    · simp only [ideaLoop, hl, if_true, List.takeWhile_cons, Bool.not_true,
        Bool.false_eq_true, ite_false, wellFormedNums]
      rw [ih, numberedLine_split_num l hl]
      by_cases ht : t = []
      · subst ht
        simp only [ne_eq, not_true_eq_false, List.isEmpty_nil, not_true_eq_false,
          or_self, ite_false, List.nil_append]
        unfold hasBody
        by_cases hb : (pyStrip (splitDot1 l).2 ≠ [] ∨
            ¬((ls.takeWhile (fun x => !numberedLine x)).isEmpty = true))
        · rcases hb with hb | hb
          · simp_all [List.isEmpty_iff]
          · simp_all [List.isEmpty_iff]
        · push_neg at hb
          obtain ⟨hb1, hb2⟩ := hb
          simp_all [List.isEmpty_iff]
      · simp only [ne_eq, ht, not_false_iff, true_or, if_true, List.map_append,
          List.map_cons, List.map_nil]
        unfold hasBody
        by_cases hb : (pyStrip (splitDot1 l).2 ≠ [] ∨
            ¬((ls.takeWhile (fun x => !numberedLine x)).isEmpty = true))
        · rcases hb with hb | hb
          · simp_all [List.isEmpty_iff]
          · simp_all [List.isEmpty_iff]
        · push_neg at hb
          obtain ⟨hb1, hb2⟩ := hb
          simp_all [List.isEmpty_iff]
    · simp only [ideaLoop, hl, Bool.false_eq_true, ite_false, List.takeWhile_cons,
        Bool.not_false, if_true, wellFormedNums]
      rw [ih]
      simp [List.isEmpty_iff]

/-- Invariant of `ideaLoop` in the initial (no current idea) state. -/
theorem ideaLoop_none_fst (ls : List Cs) :
    ∀ (acc : List (Nat × Cs)),
      (ideaLoop ls none [] acc).map Prod.fst =
        acc.map Prod.fst ++ wellFormedNums ls := by
  induction ls with
  | nil => intro acc; simp [ideaLoop, wellFormedNums]
  | cons l ls ih =>
    intro acc
    by_cases hl : numberedLine l
    · simp only [ideaLoop, hl, if_true, wellFormedNums]
      rw [ideaLoop_some_fst, numberedLine_split_num l hl]
      unfold hasBody
      by_cases hb : (pyStrip (splitDot1 l).2 ≠ [] ∨
          ¬((ls.takeWhile (fun x => !numberedLine x)).isEmpty = true))
      · rcases hb with hb | hb
        · simp_all [List.isEmpty_iff]
        · simp_all [List.isEmpty_iff]
      · push_neg at hb
        obtain ⟨hb1, hb2⟩ := hb
        simp_all [List.isEmpty_iff]
    · simp only [ideaLoop, hl, Bool.false_eq_true, ite_false, wellFormedNums]
      exact ih acc

/-- C4 (amended): the idea numbers flushed by the parser are exactly the
numbers of the numbered lines with non-empty collected text, in order, and
the mapping's key list is their first-occurrence-order deduplication.
Numbered lines with an empty body (for example a bare `1.` immediately
followed by another numbered line) are dropped. -/
theorem ideaDict_keys (ideas : Cs)
    (h : wellFormedNums (ideaLines ideas) ≠ []) :
    (ideaList ideas).map Prod.fst = wellFormedNums (ideaLines ideas) ∧
    (ideaDict ideas).map Prod.fst =
      dedupFirst (wellFormedNums (ideaLines ideas)) := by
  have h1 : (ideaList ideas).map Prod.fst = wellFormedNums (ideaLines ideas) := by
    unfold ideaList
    rw [ideaLoop_none_fst]
    simp
  refine ⟨h1, ?_⟩
  unfold ideaDict dedupFirst
  rw [foldl_pyDictInsert_keys, h1]
  simp

/-- Witness for `ideaDict_keys` on the two-idea example. -/
theorem ideaDict_keys_witness :
    wellFormedNums (ideaLines (lit "2. first idea\n1. second idea")) ≠ [] ∧
    (ideaDict (lit "2. first idea\n1. second idea")).map Prod.fst = [2, 1] := by
  refine ⟨by decide, ?_⟩
  have h := ideaDict_keys (lit "2. first idea\n1. second idea") (by decide)
  rw [h.2]
  decide

/-- C4 counterexample: for the input `"1.\n2. x"` both lines start with a
number and a period, yet the mapping's key list is `[2]`, not the claimed
set `[1, 2]` of leading numbers — the bodyless idea `1.` is dropped. -/
theorem ideaDict_keys_counterexample :
    (ideaDict (lit "1.\n2. x")).map Prod.fst = [2] ∧
    specLeadingNumbers (lit "1.\n2. x") = [1, 2] ∧
    (ideaDict (lit "1.\n2. x")).map Prod.fst ≠ specLeadingNumbers (lit "1.\n2. x") := by
  refine ⟨by decide, by decide, ?_⟩
  intro heq
  rw [show (ideaDict (lit "1.\n2. x")).map Prod.fst = [2] from by decide,
    show specLeadingNumbers (lit "1.\n2. x") = [1, 2] from by decide] at heq
  exact absurd heq (by decide)

/-- C5 counterexample: ideas text whose idea 1 has no parsable title and a
story text opening with a markdown heading.  The claim's priority would use
the heading `A Grand Heading`; `story_generator_03.py` never scans the
story lines and synthesizes the fallback headline instead (with the raw
idea text, not an empty string, as description). -/
theorem headline_priority_counterexample :
    (extract03 (lit "1. Plain idea text here") (lit "# A Grand Heading\n\nBody text."))
      = some { ideaNumber := 1,
               headline := lit "Vanity Fair Feature: Idea 1",
               description := lit "Plain idea text here",
               chosenIdea := lit "Plain idea text here" } ∧
    specHeadlinePriority (lit "1. Plain idea text here")
        (lit "# A Grand Heading\n\nBody text.")
      = (lit "A Grand Heading", []) ∧
    (extract03 (lit "1. Plain idea text here")
        (lit "# A Grand Heading\n\nBody text.")).map Selection.headline
      ≠ some (specHeadlinePriority (lit "1. Plain idea text here")
          (lit "# A Grand Heading\n\nBody text.")).1 := by
  refine ⟨by decide, by decide, ?_⟩
  intro heq
  rw [show (extract03 (lit "1. Plain idea text here")
      (lit "# A Grand Heading\n\nBody text.")).map Selection.headline
      = some (lit "Vanity Fair Feature: Idea 1") from by decide,
    show (specHeadlinePriority (lit "1. Plain idea text here")
      (lit "# A Grand Heading\n\nBody text.")).1 = lit "A Grand Heading" from by decide]
    at heq
  exact absurd heq (by decide)

/-- C5 (amended): in `story_generator_03.py` the priority is (1) the parsed
idea's title and description when the chosen number has one, else (2) the
synthesized `Vanity Fair Feature: Idea {n}` headline with the chosen raw
idea text (empty only when the number is unmapped) as description — the
line scan is never consulted.  The markdown-heading / shouted-headline scan
exists only in `story_generator.py`, where the (whole-text) heading search
and then the first-10-lines shout scan take priority and parsed idea
titles are never consulted. -/
theorem headline_priority (ideas story numTxt : Cs) (sel : Selection)
    (h : extract03 ideas story = some sel) :
    ((parsedIdeas ideas).find? (fun q => q.1 = ideaNumber story) = none →
      sel.headline = lit "Vanity Fair Feature: Idea "
          ++ (Nat.repr (ideaNumber story)).data ∧
      sel.description = dictGet (ideaDict ideas) (ideaNumber story) []) ∧
    (∀ p, (parsedIdeas ideas).find? (fun q => q.1 = ideaNumber story) = some p →
      sel.headline = p.2.1 ∧ sel.description = p.2.2) ∧
    (∀ t, firstMdHeading story = some t → headlineOld story numTxt = t) ∧
    (∀ l, firstMdHeading story = none → shoutScan story = some l →
      headlineOld story numTxt = l) ∧
    (firstMdHeading story = none → shoutScan story = none →
      headlineOld story numTxt = lit "Vanity Fair Feature: Idea " ++ numTxt) := by
  unfold extract03 at h
  by_cases he : (ideaList ideas).isEmpty
  · simp [he] at h
  · simp only [he, Bool.false_eq_true, not_false_iff, ite_false,
      Option.some.injEq] at h
    refine ⟨?_, ?_, ?_, ?_, ?_⟩
    · intro hf
      rw [hf] at h
      subst h
      exact ⟨rfl, rfl⟩
    · intro p hf
      rw [hf] at h
      subst h
      exact ⟨rfl, rfl⟩
    · intro t ht
      simp [headlineOld, ht]
    · intro l h1 h2
      simp [headlineOld, h1, h2]
    · intro h1 h2
      simp [headlineOld, h1, h2]

/-- Witness for `headline_priority` on the quoted-title example: the
extracted headline is the parsed idea title. -/
theorem headline_priority_witness :
    (extract03 (lit "1. \"Rise of X\": a profile.")
        (lit "I choose idea number 1.\nBody.")).map Selection.headline
      = some (lit "Rise of X") := by
  have h0 : extract03 (lit "1. \"Rise of X\": a profile.")
      (lit "I choose idea number 1.\nBody.")
      = some { ideaNumber := 1, headline := lit "Rise of X",
               description := lit "a profile.",
               chosenIdea := lit "\"Rise of X\": a profile." } := by decide
  have hp := (headline_priority (lit "1. \"Rise of X\": a profile.")
      (lit "I choose idea number 1.\nBody.") (lit "1") _ h0).2.1
      (1, (lit "Rise of X", lit "a profile.")) (by decide)
  rw [h0, Option.map_some', hp.1]

/-- The characters emitted by `Nat.toDigitsCore` decode back to the input. -/
theorem toDigitsCore_foldVal :
    ∀ (fuel n : Nat) (acc : Cs), n < 10 ^ fuel →
      foldVal 0 (Nat.toDigitsCore 10 fuel n acc) = foldVal n acc := by
  intro fuel
  induction fuel with
  | zero =>
    intro n acc h
    interval_cases n
    rfl
  | succ fuel ih =>
    intro n acc h
    have hd : (Nat.digitChar (n % 10)).toNat - 48 = n % 10 := by
      have h10 : n % 10 < 10 := Nat.mod_lt _ (by norm_num)
      interval_cases hm : n % 10 <;> decide
    by_cases h0 : n / 10 = 0
    · have hn : n < 10 := by omega
      have : Nat.toDigitsCore 10 (fuel + 1) n acc = Nat.digitChar (n % 10) :: acc := by
        simp [Nat.toDigitsCore, h0]
      rw [this]
      show foldVal (0 * 10 + ((Nat.digitChar (n % 10)).toNat - 48)) acc = foldVal n acc
      rw [hd, Nat.zero_mul, Nat.zero_add, Nat.mod_eq_of_lt hn]
    · have : Nat.toDigitsCore 10 (fuel + 1) n acc =
          Nat.toDigitsCore 10 fuel (n / 10) (Nat.digitChar (n % 10) :: acc) := by
        simp [Nat.toDigitsCore, h0]
      rw [this]
      have hb : n / 10 < 10 ^ fuel := by
        rw [pow_succ] at h
        omega
      rw [ih (n / 10) _ hb]
      show foldVal ((n / 10) * 10 + ((Nat.digitChar (n % 10)).toNat - 48)) acc
        = foldVal n acc
      rw [hd]
      congr 1
      omega

/-- `natOfDigits` decodes `Nat.repr`. -/
theorem natOfDigits_repr (n : Nat) : natOfDigits (Nat.repr n).data = n := by
  have hb : n < 10 ^ (n + 1) := by
    calc n < 2 ^ n := Nat.lt_two_pow n
    _ ≤ 10 ^ n := Nat.pow_le_pow_left (by norm_num) n
    _ ≤ 10 ^ (n + 1) := Nat.pow_le_pow_right (by norm_num) (Nat.le_succ n)
  have := toDigitsCore_foldVal (n + 1) n [] hb
  exact this

/-- Decimal representations of distinct numbers are distinct. -/
theorem repr_data_inj {m n : Nat} (h : (Nat.repr m).data = (Nat.repr n).data) :
    m = n := by
  have hm := natOfDigits_repr m
  have hn := natOfDigits_repr n
  rw [h] at hm
  omega

/-- Candidate filenames with distinct suffixes are distinct. -/
theorem candName_inj (dateStr slug : Cs) {j k : Nat}
    (h : candName dateStr slug j = candName dateStr slug k) : j = k := by
  unfold candName at h
  have h2 := List.append_cancel_right h
  have h3 := List.append_cancel_left h2
  by_cases hj : j = 0
  · by_cases hk : k = 0
    · omega
    · simp only [hj, if_true, hk, if_false] at h3
      have := congrArg List.length h3
      simp at this
  · by_cases hk : k = 0
    · simp only [hj, if_false, hk, if_true] at h3
      have := congrArg List.length h3
      simp at this
    · simp only [hj, if_false, hk, ite_false] at h3
      have h5 : (Nat.repr j).data = (Nat.repr k).data := by
        injection h3
      exact repr_data_inj h5

/-- If some candidate in the fuel window is free, the loop's result is not a
used name. -/
theorem pickNameLoop_free (dateStr slug : Cs) (used : List Cs) :
    ∀ (fuel k : Nat),
      (∃ j, k ≤ j ∧ j < k + fuel ∧ candName dateStr slug j ∉ used) →
      pickNameLoop dateStr slug used k fuel ∉ used := by
  intro fuel
  induction fuel with
  | zero =>
    intro k ⟨j, hj1, hj2, _⟩
    omega
  | succ fuel ih =>
    intro k ⟨j, hj1, hj2, hj3⟩
    by_cases hk : candName dateStr slug k ∈ used
    · have hjk : j ≠ k := fun he => hj3 (he ▸ hk)
      have hstep : pickNameLoop dateStr slug used k (fuel + 1) =
          pickNameLoop dateStr slug used (k + 1) fuel := by
        show (if candName dateStr slug k ∈ used then
            pickNameLoop dateStr slug used (k + 1) fuel
          else candName dateStr slug k) = _
        rw [if_pos hk]
      rw [hstep]
      exact ih (k + 1) ⟨j, by omega, by omega, hj3⟩
    · have hstep : pickNameLoop dateStr slug used k (fuel + 1)
          = candName dateStr slug k := by
        show (if candName dateStr slug k ∈ used then
            pickNameLoop dateStr slug used (k + 1) fuel
          else candName dateStr slug k) = _
        rw [if_neg hk]
      rw [hstep]
      exact hk

/-- Some candidate among `0 … used.length` is unused (pigeonhole over the
injective candidate names). -/
theorem candName_exists_free (dateStr slug : Cs) (used : List Cs) :
    ∃ j, j ≤ used.length ∧ candName dateStr slug j ∉ used := by
  by_contra hall
  push_neg at hall
  have hsub : ∀ x ∈ (List.range (used.length + 1)).map (candName dateStr slug),
      x ∈ used := by
    intro x hx
    obtain ⟨j, hj, rfl⟩ := List.mem_map.mp hx
    exact hall j (by simpa [Nat.lt_succ_iff] using List.mem_range.mp hj)
  have hnodup : ((List.range (used.length + 1)).map (candName dateStr slug)).Nodup := by
    refine List.Nodup.map_on ?_ (List.nodup_range _)
    intro a _ b _ hab
    exact candName_inj dateStr slug hab
  have hcard : ((List.range (used.length + 1)).map (candName dateStr slug)).toFinset.card
      = used.length + 1 := by
    rw [List.toFinset_card_of_nodup hnodup]
    simp
  have hle : ((List.range (used.length + 1)).map (candName dateStr slug)).toFinset.card
      ≤ used.toFinset.card := by
    apply Finset.card_le_card
    intro x hx
    rw [List.mem_toFinset] at hx ⊢
    exact hsub x hx
  have := List.toFinset_card_le used
  omega

/-- The generated filename is never one of the existing names. -/
theorem pickName_not_used (dateStr slug : Cs) (used : List Cs) :
    pickName dateStr slug used ∉ used := by
  obtain ⟨j, hj, hfree⟩ := candName_exists_free dateStr slug used
  exact pickNameLoop_free dateStr slug used (used.length + 1) 0
    ⟨j, Nat.zero_le _, by omega, hfree⟩

/-- Two successive calls with the same headline slug and date, the existing
set updated with the first result in between, return distinct filenames,
each of the candidate shape differing only in the numeric suffix. -/
theorem pickName_successive (dateStr slug : Cs) (used : List Cs) :
    pickName dateStr slug (pickName dateStr slug used :: used)
      ≠ pickName dateStr slug used ∧
    ∃ k1 k2, pickName dateStr slug used = candName dateStr slug k1 ∧
      pickName dateStr slug (pickName dateStr slug used :: used)
        = candName dateStr slug k2 ∧ k1 ≠ k2 := by
  have h2 := pickName_not_used dateStr slug (pickName dateStr slug used :: used)
  have hne : pickName dateStr slug (pickName dateStr slug used :: used)
      ≠ pickName dateStr slug used := by
    intro he
    rw [he] at h2
    exact h2 (List.mem_cons_self _ _)
  have hshape : ∀ (u : List Cs) (fuel k : Nat),
      ∃ j, pickNameLoop dateStr slug u k fuel = candName dateStr slug j := by
    intro u fuel
    induction fuel with
    | zero => intro k; exact ⟨k, rfl⟩
    | succ fuel ih =>
      intro k
      by_cases hk : candName dateStr slug k ∈ u
      · obtain ⟨j, hj⟩ := ih (k + 1)
        refine ⟨j, ?_⟩
        show (if candName dateStr slug k ∈ u then
            pickNameLoop dateStr slug u (k + 1) fuel
          else candName dateStr slug k) = candName dateStr slug j
        rw [if_pos hk]
        exact hj
      · refine ⟨k, ?_⟩
        show (if candName dateStr slug k ∈ u then
            pickNameLoop dateStr slug u (k + 1) fuel
          else candName dateStr slug k) = candName dateStr slug k
        rw [if_neg hk]
  obtain ⟨k1, hk1⟩ := hshape used (used.length + 1) 0
  obtain ⟨k2, hk2⟩ := hshape (pickName dateStr slug used :: used)
    ((pickName dateStr slug used :: used).length + 1) 0
  refine ⟨hne, k1, k2, hk1, hk2, ?_⟩
  intro he
  subst he
  exact hne (hk2.trans hk1.symm)

/-- C6: the filename generator never returns an existing name; and two
successive calls with the same headline slug and date, with the first
result added to the existing names in between, return two distinct
filenames, both of the date-slug candidate shape and differing only in the
numeric suffix index. -/
theorem unique_filenames (dateStr slug : Cs) (used : List Cs) :
    pickName dateStr slug used ∉ used
    ∧ pickName dateStr slug (pickName dateStr slug used :: used)
        ≠ pickName dateStr slug used
    ∧ ∃ k1 k2, pickName dateStr slug used = candName dateStr slug k1 ∧
        pickName dateStr slug (pickName dateStr slug used :: used)
          = candName dateStr slug k2 ∧ k1 ≠ k2 :=
  ⟨pickName_not_used dateStr slug used,
    (pickName_successive dateStr slug used).1,
    (pickName_successive dateStr slug used).2⟩

/-- `p` cannot match at the head of `x ++ b` when it definitely mismatches
within `x`. -/
theorem isPre_false_of_mismatch (p x : Cs) (h : mismatchWithin p x = true) :
    ∀ b, isPre p (x ++ b) = false := by
  induction p generalizing x with
  | nil => simp [mismatchWithin] at h
  | cons pc ps ih =>
    cases x with
    | nil => simp [mismatchWithin] at h
    | cons xc xs =>
      intro b
      simp only [mismatchWithin, Bool.or_eq_true] at h
      rcases h with h | h
      · have hne : ¬(pc = xc) := of_decide_eq_true h
        simp [isPre, hne]
      · simp only [List.cons_append, isPre, Bool.and_eq_false_iff]
        exact Or.inr (ih xs h b)

/-- A decidable per-chunk sufficient condition for `noPreAt`. -/
theorem noPreAt_of_win (p a : Cs) (h : noPreWin p a = true) : noPreAt p a := by
  induction a with
  | nil => intro i hi; simp at hi
  | cons c cs ih =>
    simp only [noPreWin, Bool.and_eq_true] at h
    intro i hi b
    cases i with
    | zero => exact isPre_false_of_mismatch p (c :: cs) h.1 b
    | succ i =>
      simp only [List.drop_succ_cons]
      exact ih h.2 i (by simpa using hi) b

/-- Markup-free text cannot start an occurrence of a pattern opening with
`'<'`. -/
theorem noPreAt_of_clean (p' a : Cs) (h : cleanTxt a) : noPreAt ('<' :: p') a := by
  intro i hi b
  have hd : List.drop i a = a[i] :: List.drop (i + 1) a := List.drop_eq_getElem_cons hi
  rw [hd]
  have hne : a[i] ≠ '<' := h a[i] (List.getElem_mem hi)
  simp [isPre, List.cons_append, Ne.symm hne]

/-- `noPreAt` composes over appends (straddling starts are covered by the
arbitrary continuation). -/
theorem noPreAt_append (p a b : Cs) (ha : noPreAt p a) (hb : noPreAt p b) :
    noPreAt p (a ++ b) := by
  intro i hi c
  by_cases hia : i < a.length
  · rw [List.drop_append_of_le_length (le_of_lt hia), List.append_assoc]
    exact ha i hia (b ++ c)
  · push_neg at hia
    obtain ⟨j, rfl⟩ : ∃ j, i = a.length + j := ⟨i - a.length, by omega⟩
    rw [List.drop_append]
    have hj : j < b.length := by
      rw [List.length_append] at hi
      omega
    exact hb j hj c

/-! #### Substitution lemmas over chunk decompositions -/
/-- `subA` copies a region where the matcher can never fire. -/
theorem subA_skip (m : Cs → Option Nat) (r : Cs) (a : Cs)
    (h : ∀ i, i < a.length → ∀ b', m (List.drop i a ++ b') = none) (b : Cs) :
    subA m r (a ++ b) = a ++ subA m r b := by
  induction a with
  | nil => simp
  | cons c cs ih =>
    rw [List.cons_append, subA_cons]
    have h0 : m (c :: (cs ++ b)) = none := by
      have := h 0 (by simp) b
      simpa using this
    rw [h0]
    rw [ih (fun i hi b' => by
      have := h (i + 1) (by simpa using hi) b'
      simpa using this)]
    rfl

/-- `subA` fires exactly once at a fully matched leading region. -/
theorem subA_match_here (m : Cs → Option Nat) (r : Cs) (x b : Cs) (hx : x ≠ [])
    (hm : m (x ++ b) = some x.length) :
    subA m r (x ++ b) = r ++ subA m r b := by
  cases x with
  | nil => exact absurd rfl hx
  | cons c xs =>
    rw [List.cons_append, subA_cons]
    have hm2 : m (c :: (xs ++ b)) = some (xs.length + 1) := by
      rw [← List.cons_append, hm]
      simp
    rw [hm2]
    simp only
    rw [show List.drop xs.length (xs ++ b) = b from List.drop_left xs b]

/-- `subA` is the identity on a region where the matcher can never fire. -/
theorem subA_stop (m : Cs → Option Nat) (r : Cs) (a : Cs)
    (h : ∀ i, i < a.length → ∀ b', m (List.drop i a ++ b') = none) :
    subA m r a = a := by
  have := subA_skip m r a h []
  rw [show subA m r [] = [] from rfl, List.append_nil] at this
  exact this

/-- `hasMatchA` ignores a region where the matcher can never fire. -/
theorem hasMatchA_skip (m : Cs → Option Nat) (a : Cs)
    (h : ∀ i, i < a.length → ∀ b', m (List.drop i a ++ b') = none) (b : Cs) :
    hasMatchA m (a ++ b) = hasMatchA m b := by
  induction a with
  | nil => simp
  | cons c cs ih =>
    rw [List.cons_append]
    show ((m (c :: (cs ++ b))).isSome || hasMatchA m (cs ++ b)) = hasMatchA m b
    have h0 : m (c :: (cs ++ b)) = none := by
      have := h 0 (by simp) b
      simpa using this
    rw [h0]
    simp only [Option.isSome_none, Bool.false_or]
    exact ih (fun i hi b' => by
      have := h (i + 1) (by simpa using hi) b'
      simpa using this)

/-- `hasMatchA` holds when the matcher fires at the head. -/
theorem hasMatchA_head (m : Cs → Option Nat) (x b : Cs) (n : Nat) (hx : x ≠ [])
    (hm : m (x ++ b) = some n) : hasMatchA m (x ++ b) = true := by
  cases x with
  | nil => exact absurd rfl hx
  | cons c xs =>
    rw [List.cons_append]
    show ((m (c :: (xs ++ b))).isSome || hasMatchA m (xs ++ b)) = true
    rw [← List.cons_append, hm]
    rfl

/-- Substring containment distributes over a right summand. -/
theorem hasSub_append_right (p a b : Cs) (h : hasSub p b = true) :
    hasSub p (a ++ b) = true := by
  induction a with
  | nil => simpa using h
  | cons c cs ih =>
    rw [List.cons_append]
    show (isPre p (c :: (cs ++ b)) || hasSub p (cs ++ b)) = true
    rw [ih]
    simp

/-- A pattern is a prefix of itself followed by anything. -/
theorem isPre_self_append (p b : Cs) : isPre p (p ++ b) = true := by
  induction p with
  | nil => rfl
  | cons c cs ih => simp [isPre, ih]

/-- A pattern occurring as an explicit chunk is contained. -/
theorem hasSub_here (p b : Cs) : hasSub p (p ++ b) = true := by
  cases p with
  | nil => cases b <;> simp [hasSub, isPre]
  | cons c cs =>
    rw [List.cons_append]
    show (isPre (c :: cs) (c :: (cs ++ b)) || _) = true
    rw [← List.cons_append, isPre_self_append]
    rfl

/-- Position-count of a pattern ignores a region where it cannot start. -/
theorem countOcc_skip (p a : Cs) (h : noPreAt p a) (b : Cs) :
    countOcc p (a ++ b) = countOcc p b := by
  induction a with
  | nil => simp
  | cons c cs ih =>
    rw [List.cons_append]
    show ((if isPre p (c :: (cs ++ b)) then 1 else 0) + countOcc p (cs ++ b)) = _
    have h0 : isPre p (c :: (cs ++ b)) = false := by
      have := h 0 (by simp) b
      simpa using this
    rw [h0]
    simp only [Bool.false_eq_true, ite_false, Nat.zero_add]
    exact ih (fun i hi b' => by
      have := h (i + 1) (by simpa using hi) b'
      simpa using this)

/-- Position-count at an explicit occurrence whose tail cannot restart the
pattern. -/
theorem countOcc_here (c : Char) (p' b : Cs) (h : noPreAt (c :: p') p') :
    countOcc (c :: p') ((c :: p') ++ b) = 1 + countOcc (c :: p') b := by
  rw [List.cons_append]
  show ((if isPre (c :: p') (c :: (p' ++ b)) then 1 else 0) + countOcc (c :: p') (p' ++ b)) = _
  rw [← List.cons_append, isPre_self_append]
  simp only [if_true]
  rw [countOcc_skip (c :: p') p' h b]

/-- The whitespace run of a pure-whitespace chunk continues into the tail. -/
theorem wsRun_ws_prefix (a : Cs) (h : ∀ c ∈ a, pyWs c = true) (b : Cs) :
    wsRun (a ++ b) = a.length + wsRun b := by
  induction a with
  | nil => simp [wsRun]
  | cons c cs ih =>
    rw [List.cons_append]
    show (if pyWs c then wsRun (cs ++ b) + 1 else 0) = _
    rw [h c (List.mem_cons_self _ _)]
    simp only [if_true]
    rw [ih (fun d hd => h d (List.mem_cons_of_mem _ hd))]
    simp only [List.length_cons]
    omega

/-- The whitespace run stops at a non-whitespace head. -/
theorem wsRun_stop (c : Char) (h : pyWs c = false) (b : Cs) :
    wsRun (c :: b) = 0 := by
  show (if pyWs c then wsRun b + 1 else 0) = 0
  rw [h]
  rfl

/-! #### Matcher-specific lemmas -/
/-- Opener-gated matchers fail where their opener cannot match. -/
theorem noneAt_of_noPreAt (O : Cs) (M : Cs → Option Nat)
    (hM : ∀ s, isPre O s = false → M s = none) (a : Cs) (h : noPreAt O a) :
    ∀ i, i < a.length → ∀ b, M (List.drop i a ++ b) = none :=
  fun i hi b => hM _ (h i hi b)

theorem matchFeatured_gate (s : Cs) (h : isPre featOpener s = false) :
    matchFeatured s = none := by simp [matchFeatured, h]

theorem matchFeatSection_gate (s : Cs) (h : isPre secOpen s = false) :
    matchFeatSection s = none := by simp [matchFeatSection, h]

theorem matchMarker_gate (s : Cs) (h : isPre marker s = false) :
    matchMarker s = none := by simp [matchMarker, h]

/-- The literal-marker matcher fires on the marker itself. -/
theorem matchMarker_fire (b : Cs) : matchMarker (marker ++ b) = some marker.length := by
  simp [matchMarker, isPre_self_append]

/-- The featured-section matcher consumes the wrapper opener and the
following whitespace run. -/
theorem matchFeatSection_at (w b : Cs) (hw : ∀ c ∈ w, pyWs c = true)
    (hb : wsRun b = 0) :
    matchFeatSection ((secOpen ++ w) ++ b) = some (secOpen ++ w).length := by
  unfold matchFeatSection
  rw [List.append_assoc, isPre_self_append]
  simp only [if_true]
  rw [List.drop_left, wsRun_ws_prefix w hw b, hb, List.length_append]
  simp

theorem cleanTxt_of_B (s : Cs) (h : cleanB s = true) : cleanTxt s := by
  intro c hc
  have := List.all_eq_true.mp h c hc
  simpa using this

theorem cleanTxt_append (a b : Cs) (ha : cleanTxt a) (hb : cleanTxt b) :
    cleanTxt (a ++ b) := by
  intro c hc
  rcases List.mem_append.mp hc with h | h
  · exact ha c h
  · exact hb c h

theorem cleanTxt_padFH (n : Nat) : cleanTxt (padFH n) := by
  induction n with
  | zero => intro c hc; cases hc
  | succ n ih =>
    exact cleanTxt_append _ _ (cleanTxt_of_B _ (by decide)) ih

theorem cleanTxt_padNL (n : Nat) : cleanTxt (padNL n) := by
  induction n with
  | zero => intro c hc; cases hc
  | succ n ih =>
    intro c hc
    rcases List.mem_cons.mp hc with h | h
    · subst h; decide
    · exact ih c h

theorem cleanTxt_shortDesc (s : Cs) (h : cleanTxt s) : cleanTxt (shortDesc s) := by
  unfold shortDesc
  by_cases hl : 150 < s.length
  · simp only [hl, if_true]
    refine cleanTxt_append _ _ ?_ (cleanTxt_of_B _ (by decide))
    intro c hc
    exact h c (List.mem_of_mem_take hc)
  · simpa [hl] using h

/-- Markup-free text cannot start any of our openers. -/
theorem noPreAt_featOpener_clean (a : Cs) (h : cleanTxt a) : noPreAt featOpener a := by
  rw [show featOpener = '<' :: lit "div class=\"story-card featured\">" from by decide]
  exact noPreAt_of_clean _ a h

theorem noPreAt_marker_clean (a : Cs) (h : cleanTxt a) : noPreAt marker a := by
  rw [show marker = '<' :: lit "div class=\"story-grid\">" from by decide]
  exact noPreAt_of_clean _ a h

theorem noPreAt_div_clean (a : Cs) (h : cleanTxt a) : noPreAt (lit "</div>") a := by
  rw [show lit "</div>" = '<' :: lit "/div>" from by decide]
  exact noPreAt_of_clean _ a h

/-! #### `findDivDiv` stepping -/
/-- `findDivDiv` skips a region where `</div>` cannot start. -/
theorem fdd_skip (a : Cs) (h : noPreAt (lit "</div>") a) (b : Cs) :
    findDivDiv (a ++ b) = (findDivDiv b).map (· + a.length) := by
  induction a with
  | nil =>
    simp only [List.nil_append, List.length_nil]
    cases findDivDiv b <;> simp
  | cons c cs ih =>
    rw [List.cons_append]
    simp only [findDivDiv]
    have h0 : isPre (lit "</div>") (c :: (cs ++ b)) = false := by
      have := h 0 (by simp) b
      simpa using this
    rw [h0]
    simp only [Bool.false_eq_true, ite_false]
    rw [ih (fun i hi b' => by
      have := h (i + 1) (by simpa using hi) b'
      simpa using this)]
    cases findDivDiv b <;> simp <;> omega

/-- One `findDivDiv` step at an explicit `</div>`. -/
theorem fdd_at_div (rest : Cs) :
    findDivDiv (lit "</div>" ++ rest) =
      (if isPre (lit "</div>") (List.drop (wsRun rest) rest)
       then some (12 + wsRun rest)
       else (findDivDiv (lit "/div>" ++ rest)).map (· + 1)) := by
  have hcons : lit "</div>" ++ rest = '<' :: (lit "/div>" ++ rest) := by
    rw [show lit "</div>" = '<' :: lit "/div>" from by decide]
    rfl
  rw [hcons]
  simp only [findDivDiv]
  have h1 : isPre (lit "</div>") ('<' :: (lit "/div>" ++ rest)) = true := by
    rw [← hcons]
    exact isPre_self_append _ _
  rw [h1]
  have h2 : List.drop 6 ('<' :: (lit "/div>" ++ rest)) = rest := by
    rw [← hcons]
    have := List.drop_left (lit "</div>") rest
    rw [show (lit "</div>").length = 6 from by decide] at this
    exact this
  simp only [if_true, h2]
  by_cases h3 : isPre (lit "</div>") (List.drop (wsRun rest) rest) = true
  · rw [h3]
    simp only [if_true, Option.some.injEq]
    omega
  · rw [eq_false_of_ne_true h3]
    simp only [Bool.false_eq_true, ite_false]

/-- The successful terminal candidate `</div>\n        </div>`. -/
theorem fdd_success (b : Cs) :
    findDivDiv (lit "</div>\n        </div>" ++ b) = some 21 := by
  rw [show lit "</div>\n        </div>" = lit "</div>" ++ lit "\n        </div>"
    from by decide, List.append_assoc, fdd_at_div]
  have hw : wsRun (lit "\n        </div>" ++ b) = 9 := by
    rw [show lit "\n        </div>" = lit "\n        " ++ lit "</div>" from by decide,
      List.append_assoc,
      wsRun_ws_prefix (lit "\n        ") (by decide) (lit "</div>" ++ b)]
    rw [show wsRun (lit "</div>" ++ b) = 0 from by
      rw [show lit "</div>" ++ b = '<' :: (lit "/div>" ++ b) from by
        rw [show lit "</div>" = '<' :: lit "/div>" from by decide]; rfl]
      exact wsRun_stop '<' (by decide) _]
    decide
  rw [hw]
  have hdrop : List.drop 9 (lit "\n        </div>" ++ b) = lit "</div>" ++ b := by
    rw [show lit "\n        </div>" = lit "\n        " ++ lit "</div>" from by decide,
      List.append_assoc]
    have := List.drop_left (lit "\n        ") (lit "</div>" ++ b)
    rw [show (lit "\n        ").length = 9 from by decide] at this
    exact this
  rw [hdrop, isPre_self_append]
  rfl

/-- The failing candidate inside the story-meta close: the `</div>` there is
followed (after whitespace) by `<div`, so the scan moves on. -/
theorem fdd_fail_meta (b : Cs) :
    findDivDiv
        (lit "</div>\n            <div class=\"story-excerpt\">\n                <p>" ++ b)
      = (findDivDiv b).map
          (· + (lit "</div>\n            <div class=\"story-excerpt\">\n                <p>").length) := by
  rw [show lit "</div>\n            <div class=\"story-excerpt\">\n                <p>"
    = lit "</div>" ++ lit "\n            <div class=\"story-excerpt\">\n                <p>"
    from by decide, List.append_assoc, fdd_at_div]
  have hw : wsRun (lit "\n            <div class=\"story-excerpt\">\n                <p>" ++ b)
      = 13 := by
    rw [show lit "\n            <div class=\"story-excerpt\">\n                <p>"
      = lit "\n            " ++ lit "<div class=\"story-excerpt\">\n                <p>"
      from by decide, List.append_assoc,
      wsRun_ws_prefix (lit "\n            ") (by decide) _]
    rw [show lit "<div class=\"story-excerpt\">\n                <p>" ++ b
      = '<' :: (lit "div class=\"story-excerpt\">\n                <p>" ++ b) from by
        rw [show lit "<div class=\"story-excerpt\">\n                <p>"
          = '<' :: lit "div class=\"story-excerpt\">\n                <p>" from by decide]
        rfl]
    rw [wsRun_stop '<' (by decide) _]
    decide
  rw [hw]
  have hdrop : List.drop 13
      (lit "\n            <div class=\"story-excerpt\">\n                <p>" ++ b)
      = lit "<div class=\"story-excerpt\">\n                <p>" ++ b := by
    rw [show lit "\n            <div class=\"story-excerpt\">\n                <p>"
      = lit "\n            " ++ lit "<div class=\"story-excerpt\">\n                <p>"
      from by decide, List.append_assoc]
    have := List.drop_left (lit "\n            ")
      (lit "<div class=\"story-excerpt\">\n                <p>" ++ b)
    rw [show (lit "\n            ").length = 13 from by decide] at this
    exact this
  rw [hdrop]
  have hfalse : isPre (lit "</div>")
      (lit "<div class=\"story-excerpt\">\n                <p>" ++ b) = false :=
    isPre_false_of_mismatch _ _ (by decide) b
  rw [hfalse]
  simp only [Bool.false_eq_true, ite_false]
  rw [show lit "/div>"
      ++ (lit "\n            <div class=\"story-excerpt\">\n                <p>" ++ b)
    = lit "/div>\n            <div class=\"story-excerpt\">\n                <p>" ++ b
    from by
      rw [← List.append_assoc,
        show lit "/div>" ++ lit "\n            <div class=\"story-excerpt\">\n                <p>"
          = lit "/div>\n            <div class=\"story-excerpt\">\n                <p>"
          from by decide]]
  rw [fdd_skip (lit "/div>\n            <div class=\"story-excerpt\">\n                <p>")
    (noPreAt_of_win _ _ (by decide)) b]
  have l1 : (lit "/div>\n            <div class=\"story-excerpt\">\n                <p>").length
      = 65 := by decide
  have l2 : (lit "</div>").length = 6 := by decide
  have l3 : (lit "\n            <div class=\"story-excerpt\">\n                <p>").length
      = 60 := by decide
  cases findDivDiv b <;> simp [l1, l2, l3, List.length_append] <;> omega

/-- The empty region admits no pattern start. -/
theorem noPreAt_nil (p : Cs) : noPreAt p [] := by
  intro i hi
  simp at hi

/-- The featured regex matches exactly the featured card: the lazy scan
rejects the story-meta `</div>` (followed by a `<div`) and succeeds at the
excerpt/card closing pair. -/
theorem matchFeatured_fire (m : CardMeta) (hm : cleanMeta m) (b : Cs) :
    matchFeatured (fsCore m ++ b) = some (fsCore m).length := by
  obtain ⟨hh, hd, hs, hf⟩ := hm
  have hrw : fsCore m ++ b = featOpener ++ (FL1 ++ (m.h ++ (FL2 ++ (m.d ++ (FL3a ++
      (FDDF ++ (shortDesc m.s ++ (FL4 ++ (m.f ++ (FL5a ++ (FDDS ++ b))))))))))) := by
    simp only [fsCore, List.append_assoc]
  rw [hrw]
  unfold matchFeatured
  rw [isPre_self_append]
  simp only [if_true]
  rw [List.drop_left]
  have e1 : findDivDiv (FDDS ++ b) = some 21 := fdd_success b
  have e2 : findDivDiv (FL5a ++ (FDDS ++ b)) = some (21 + FL5a.length) := by
    rw [fdd_skip FL5a (noPreAt_of_win _ _ (by decide)) _, e1]
    rfl
  have e3 : findDivDiv (m.f ++ (FL5a ++ (FDDS ++ b)))
      = some (21 + FL5a.length + m.f.length) := by
    rw [fdd_skip m.f (noPreAt_div_clean _ hf) _, e2]
    rfl
  have e4 : findDivDiv (FL4 ++ (m.f ++ (FL5a ++ (FDDS ++ b))))
      = some (21 + FL5a.length + m.f.length + FL4.length) := by
    rw [fdd_skip FL4 (noPreAt_of_win _ _ (by decide)) _, e3]
    rfl
  have e5 : findDivDiv (shortDesc m.s ++ (FL4 ++ (m.f ++ (FL5a ++ (FDDS ++ b)))))
      = some (21 + FL5a.length + m.f.length + FL4.length + (shortDesc m.s).length) := by
    rw [fdd_skip (shortDesc m.s) (noPreAt_div_clean _ (cleanTxt_shortDesc _ hs)) _, e4]
    rfl
  have e6 : findDivDiv (FDDF ++ (shortDesc m.s ++ (FL4 ++ (m.f ++ (FL5a ++ (FDDS ++ b))))))
      = some (21 + FL5a.length + m.f.length + FL4.length + (shortDesc m.s).length
          + FDDF.length) := by
    rw [show FDDF
      = lit "</div>\n            <div class=\"story-excerpt\">\n                <p>"
      from rfl, fdd_fail_meta, e5]
    rfl
  have e7 : findDivDiv (FL3a ++ (FDDF ++ (shortDesc m.s ++ (FL4 ++ (m.f ++ (FL5a
      ++ (FDDS ++ b)))))))
      = some (21 + FL5a.length + m.f.length + FL4.length + (shortDesc m.s).length
          + FDDF.length + FL3a.length) := by
    rw [fdd_skip FL3a (noPreAt_of_win _ _ (by decide)) _, e6]
    rfl
  have e8 : findDivDiv (m.d ++ (FL3a ++ (FDDF ++ (shortDesc m.s ++ (FL4 ++ (m.f
      ++ (FL5a ++ (FDDS ++ b))))))))
      = some (21 + FL5a.length + m.f.length + FL4.length + (shortDesc m.s).length
          + FDDF.length + FL3a.length + m.d.length) := by
    rw [fdd_skip m.d (noPreAt_div_clean _ hd) _, e7]
    rfl
  have e9 : findDivDiv (FL2 ++ (m.d ++ (FL3a ++ (FDDF ++ (shortDesc m.s ++ (FL4
      ++ (m.f ++ (FL5a ++ (FDDS ++ b)))))))))
      = some (21 + FL5a.length + m.f.length + FL4.length + (shortDesc m.s).length
          + FDDF.length + FL3a.length + m.d.length + FL2.length) := by
    rw [fdd_skip FL2 (noPreAt_of_win _ _ (by decide)) _, e8]
    rfl
  have e10 : findDivDiv (m.h ++ (FL2 ++ (m.d ++ (FL3a ++ (FDDF ++ (shortDesc m.s
      ++ (FL4 ++ (m.f ++ (FL5a ++ (FDDS ++ b))))))))))
      = some (21 + FL5a.length + m.f.length + FL4.length + (shortDesc m.s).length
          + FDDF.length + FL3a.length + m.d.length + FL2.length + m.h.length) := by
    rw [fdd_skip m.h (noPreAt_div_clean _ hh) _, e9]
    rfl
  have e11 : findDivDiv (FL1 ++ (m.h ++ (FL2 ++ (m.d ++ (FL3a ++ (FDDF
      ++ (shortDesc m.s ++ (FL4 ++ (m.f ++ (FL5a ++ (FDDS ++ b)))))))))))
      = some (21 + FL5a.length + m.f.length + FL4.length + (shortDesc m.s).length
          + FDDF.length + FL3a.length + m.d.length + FL2.length + m.h.length
          + FL1.length) := by
    rw [fdd_skip FL1 (noPreAt_of_win _ _ (by decide)) _, e10]
    rfl
  rw [e11]
  simp only [Option.map_some', Option.some.injEq]
  have hFDDS : FDDS.length = 21 := by decide
  simp only [fsCore, List.length_append]
  omega

/-- Neither opener can start inside an archive card. -/
theorem noPreAt_card (p : Cs) (x : CardMeta) (hx : cleanMeta x)
    (hp : p = featOpener ∨ p = marker)
    (h1 : noPreWin p (lit "\n") = true) (h2 : noPreWin p SC1 = true)
    (h3 : noPreWin p SC2 = true) (h4 : noPreWin p SC3 = true)
    (h5 : noPreWin p SC4 = true) (h6 : noPreWin p SC5 = true) :
    noPreAt p ('\n' :: storyCard x) := by
  obtain ⟨ha, hb, hc, hd⟩ := hx
  have hclean : ∀ a, cleanTxt a → noPreAt p a := by
    rcases hp with hp | hp <;> subst hp
    · exact noPreAt_featOpener_clean
    · exact noPreAt_marker_clean
  have : ('\n' :: storyCard x) = lit "\n" ++ storyCard x := rfl
  rw [this]
  unfold storyCard
  simp only [List.append_assoc]
  exact noPreAt_append _ _ _ (noPreAt_of_win _ _ h1)
    (noPreAt_append _ _ _ (noPreAt_of_win _ _ h2)
    (noPreAt_append _ _ _ (hclean _ ha)
    (noPreAt_append _ _ _ (noPreAt_of_win _ _ h3)
    (noPreAt_append _ _ _ (hclean _ hb)
    (noPreAt_append _ _ _ (noPreAt_of_win _ _ h4)
    (noPreAt_append _ _ _ (hclean _ hc)
    (noPreAt_append _ _ _ (noPreAt_of_win _ _ h5)
    (noPreAt_append _ _ _ (hclean _ hd) (noPreAt_of_win _ _ h6)))))))))

/-- Neither opener can start inside the archive card list. -/
theorem noPreAt_cards (p : Cs) (l : List CardMeta) (hl : ∀ x ∈ l, cleanMeta x)
    (hp : p = featOpener ∨ p = marker)
    (h1 : noPreWin p (lit "\n") = true) (h2 : noPreWin p SC1 = true)
    (h3 : noPreWin p SC2 = true) (h4 : noPreWin p SC3 = true)
    (h5 : noPreWin p SC4 = true) (h6 : noPreWin p SC5 = true) :
    noPreAt p ((l.map (fun x => '\n' :: storyCard x)).flatten) := by
  induction l with
  | nil => exact noPreAt_nil p
  | cons x xs ih =>
    simp only [List.map_cons, List.flatten_cons]
    exact noPreAt_append _ _ _
      (noPreAt_card p x (hl x (List.mem_cons_self _ _)) hp h1 h2 h3 h4 h5 h6)
      (ih (fun y hy => hl y (List.mem_cons_of_mem _ hy)))

/-- The marker cannot start inside the featured card. -/
theorem noPreAt_marker_fsCore (m : CardMeta) (hm : cleanMeta m) :
    noPreAt marker (fsCore m) := by
  obtain ⟨ha, hb, hc, hd⟩ := hm
  unfold fsCore
  simp only [List.append_assoc]
  exact noPreAt_append _ _ _ (noPreAt_of_win _ _ (by decide))
    (noPreAt_append _ _ _ (noPreAt_of_win _ _ (by decide))
    (noPreAt_append _ _ _ (noPreAt_marker_clean _ ha)
    (noPreAt_append _ _ _ (noPreAt_of_win _ _ (by decide))
    (noPreAt_append _ _ _ (noPreAt_marker_clean _ hb)
    (noPreAt_append _ _ _ (noPreAt_of_win _ _ (by decide))
    (noPreAt_append _ _ _ (noPreAt_of_win _ _ (by decide))
    (noPreAt_append _ _ _ (noPreAt_marker_clean _ (cleanTxt_shortDesc _ hc))
    (noPreAt_append _ _ _ (noPreAt_of_win _ _ (by decide))
    (noPreAt_append _ _ _ (noPreAt_marker_clean _ hd)
    (noPreAt_append _ _ _ (noPreAt_of_win _ _ (by decide))
      (noPreAt_of_win _ _ (by decide))))))))))))

/-- The pads admit no opener start. -/
theorem noPreAt_padFH (p' : Cs) (n : Nat) : noPreAt ('<' :: p') (padFH n) :=
  noPreAt_of_clean _ _ (cleanTxt_padFH n)

theorem noPreAt_padNL (p' : Cs) (n : Nat) : noPreAt ('<' :: p') (padNL n) :=
  noPreAt_of_clean _ _ (cleanTxt_padNL n)

theorem padFH_snoc (k : Nat) : padFH k ++ FH = padFH (k + 1) := by
  induction k with
  | zero => rfl
  | succ k ih =>
    show (FH ++ padFH k) ++ FH = FH ++ padFH (k + 1)
    rw [List.append_assoc, ih]

theorem padNL_cons (k : Nat) : lit "\n" ++ padNL k = padNL (k + 1) := rfl

theorem padFH_mid (k : Nat) (X : Cs) : padFH k ++ (FH ++ X) = padFH (k + 1) ++ X := by
  rw [← List.append_assoc, padFH_snoc]

theorem padNL_mid (k : Nat) (X : Cs) :
    lit "\n" ++ (padNL k ++ X) = padNL (k + 1) ++ X := by
  rw [← List.append_assoc, padNL_cons]

theorem fsCore_ne_nil (m : CardMeta) : fsCore m ≠ [] := by
  intro h
  have := congrArg List.length h
  simp only [fsCore, List.length_append, List.length_nil] at this
  rw [show featOpener.length = 33 from by decide] at this
  omega

/-- One merge on a reachable document replaces the featured card and
prepends the archive card: the step from `docAfter m0 rest` to
`docAfter m (m0 :: rest)`. -/
theorem mergeIndex_step (m m0 : CardMeta) (rest : List CardMeta)
    (hm : cleanMeta m) (hm0 : cleanMeta m0) (hrest : ∀ x ∈ rest, cleanMeta x) :
    mergeIndex m (docAfter m0 rest) = docAfter m (m0 :: rest) := by
  have hall : ∀ x ∈ m0 :: rest, cleanMeta x := by
    intro x hx
    rcases List.mem_cons.mp hx with h | h
    · exact h ▸ hm0
    · exact hrest x h
  have hdoc : docAfter m0 rest
      = lit "<main class=\"container\">\n    <section class=\"featured-story\">\n"
        ++ (padFH (rest.length + 1) ++ (fsCore m0 ++ (padNL (rest.length + 2)
        ++ (lit "</section>\n\n    <section class=\"story-archive\">\n        <h2 class=\"section-title\">Recent Stories</h2>\n        "
        ++ (marker ++ (((m0 :: rest).map (fun x => '\n' :: storyCard x)).flatten
        ++ lit "\n        </div>\n    </section>\n\n</main>")))))) := by
    simp only [docAfter, List.append_assoc]
  -- matcher-failure facts for the regions around the match sites
  have nfDA : noPreAt featOpener
      (lit "<main class=\"container\">\n    <section class=\"featured-story\">\n") :=
    noPreAt_of_win _ _ (by decide)
  have nmDA : noPreAt marker
      (lit "<main class=\"container\">\n    <section class=\"featured-story\">\n") :=
    noPreAt_of_win _ _ (by decide)
  have nfFH : ∀ k, noPreAt featOpener (padFH k) :=
    fun k => noPreAt_featOpener_clean _ (cleanTxt_padFH k)
  have nmFH : ∀ k, noPreAt marker (padFH k) :=
    fun k => noPreAt_marker_clean _ (cleanTxt_padFH k)
  have nfNL : ∀ k, noPreAt featOpener (padNL k) :=
    fun k => noPreAt_featOpener_clean _ (cleanTxt_padNL k)
  have nmNL : ∀ k, noPreAt marker (padNL k) :=
    fun k => noPreAt_marker_clean _ (cleanTxt_padNL k)
  have nfC2 : noPreAt featOpener
      (lit "</section>\n\n    <section class=\"story-archive\">\n        <h2 class=\"section-title\">Recent Stories</h2>\n        ") :=
    noPreAt_of_win _ _ (by decide)
  have nmC2 : noPreAt marker
      (lit "</section>\n\n    <section class=\"story-archive\">\n        <h2 class=\"section-title\">Recent Stories</h2>\n        ") :=
    noPreAt_of_win _ _ (by decide)
  have nfMk : noPreAt featOpener marker := noPreAt_of_win _ _ (by decide)
  have nfC3 : noPreAt featOpener (lit "\n        </div>\n    </section>\n\n</main>") :=
    noPreAt_of_win _ _ (by decide)
  have nmC3 : noPreAt marker (lit "\n        </div>\n    </section>\n\n</main>") :=
    noPreAt_of_win _ _ (by decide)
  have nfCards : noPreAt featOpener
      (((m0 :: rest).map (fun x => '\n' :: storyCard x)).flatten) :=
    noPreAt_cards featOpener (m0 :: rest) hall (Or.inl rfl)
      (by decide) (by decide) (by decide) (by decide) (by decide) (by decide)
  have nmCards : noPreAt marker
      (((m0 :: rest).map (fun x => '\n' :: storyCard x)).flatten) :=
    noPreAt_cards marker (m0 :: rest) hall (Or.inr rfl)
      (by decide) (by decide) (by decide) (by decide) (by decide) (by decide)
  have nfFS : noPreAt featOpener (padNL (rest.length + 2)
      ++ (lit "</section>\n\n    <section class=\"story-archive\">\n        <h2 class=\"section-title\">Recent Stories</h2>\n        "
      ++ (marker ++ (((m0 :: rest).map (fun x => '\n' :: storyCard x)).flatten
      ++ lit "\n        </div>\n    </section>\n\n</main>")))) :=
    noPreAt_append _ _ _ (nfNL _)
      (noPreAt_append _ _ _ nfC2
      (noPreAt_append _ _ _ nfMk
      (noPreAt_append _ _ _ nfCards nfC3)))
  -- step 1: the marker is present, the bootstrap is skipped
  have hA : hasSub marker (docAfter m0 rest) = true := by
    rw [hdoc]
    refine hasSub_append_right _ _ _ ?_
    refine hasSub_append_right _ _ _ ?_
    refine hasSub_append_right _ _ _ ?_
    refine hasSub_append_right _ _ _ ?_
    refine hasSub_append_right _ _ _ ?_
    exact hasSub_here _ _
  -- step 2: the featured regex fires
  have hB : hasMatchA matchFeatured (docAfter m0 rest) = true := by
    rw [hdoc]
    rw [hasMatchA_skip _ _ (noneAt_of_noPreAt _ _ matchFeatured_gate _ nfDA)]
    rw [hasMatchA_skip _ _ (noneAt_of_noPreAt _ _ matchFeatured_gate _ (nfFH _))]
    exact hasMatchA_head _ _ _ _ (fsCore_ne_nil m0) (matchFeatured_fire m0 hm0 _)
  have hC : subA matchFeatured (featuredStory m) (docAfter m0 rest)
      = lit "<main class=\"container\">\n    <section class=\"featured-story\">\n"
        ++ (padFH (rest.length + 1) ++ (featuredStory m ++ (padNL (rest.length + 2)
        ++ (lit "</section>\n\n    <section class=\"story-archive\">\n        <h2 class=\"section-title\">Recent Stories</h2>\n        "
        ++ (marker ++ (((m0 :: rest).map (fun x => '\n' :: storyCard x)).flatten
        ++ lit "\n        </div>\n    </section>\n\n</main>")))))) := by
    rw [hdoc]
    rw [subA_skip _ _ _ (noneAt_of_noPreAt _ _ matchFeatured_gate _ nfDA)]
    rw [subA_skip _ _ _ (noneAt_of_noPreAt _ _ matchFeatured_gate _ (nfFH _))]
    rw [subA_match_here _ _ _ _ (fsCore_ne_nil m0) (matchFeatured_fire m0 hm0 _)]
    rw [subA_stop _ _ _ (noneAt_of_noPreAt _ _ matchFeatured_gate _ nfFS)]
  have hD : hasSub marker
      (lit "<main class=\"container\">\n    <section class=\"featured-story\">\n"
        ++ (padFH (rest.length + 1) ++ (featuredStory m ++ (padNL (rest.length + 2)
        ++ (lit "</section>\n\n    <section class=\"story-archive\">\n        <h2 class=\"section-title\">Recent Stories</h2>\n        "
        ++ (marker ++ (((m0 :: rest).map (fun x => '\n' :: storyCard x)).flatten
        ++ lit "\n        </div>\n    </section>\n\n</main>"))))))) = true := by
    refine hasSub_append_right _ _ _ ?_
    refine hasSub_append_right _ _ _ ?_
    refine hasSub_append_right _ _ _ ?_
    refine hasSub_append_right _ _ _ ?_
    refine hasSub_append_right _ _ _ ?_
    exact hasSub_here _ _
  have nmFS : noPreAt marker (featuredStory m) := by
    unfold featuredStory
    rw [List.append_assoc]
    exact noPreAt_append _ _ _ (noPreAt_marker_clean FH (cleanTxt_of_B FH (by decide)))
      (noPreAt_append _ _ _ (noPreAt_marker_fsCore m hm)
        (noPreAt_of_win marker (lit "\n") (by decide)))
  have hE : subA matchMarker (marker ++ '\n' :: storyCard m)
      (lit "<main class=\"container\">\n    <section class=\"featured-story\">\n"
        ++ (padFH (rest.length + 1) ++ (featuredStory m ++ (padNL (rest.length + 2)
        ++ (lit "</section>\n\n    <section class=\"story-archive\">\n        <h2 class=\"section-title\">Recent Stories</h2>\n        "
        ++ (marker ++ (((m0 :: rest).map (fun x => '\n' :: storyCard x)).flatten
        ++ lit "\n        </div>\n    </section>\n\n</main>"))))))) =
      lit "<main class=\"container\">\n    <section class=\"featured-story\">\n"
        ++ (padFH (rest.length + 1) ++ (featuredStory m ++ (padNL (rest.length + 2)
        ++ (lit "</section>\n\n    <section class=\"story-archive\">\n        <h2 class=\"section-title\">Recent Stories</h2>\n        "
        ++ ((marker ++ '\n' :: storyCard m)
        ++ (((m0 :: rest).map (fun x => '\n' :: storyCard x)).flatten
        ++ lit "\n        </div>\n    </section>\n\n</main>")))))) := by
    rw [subA_skip _ _ _ (noneAt_of_noPreAt _ _ matchMarker_gate _ nmDA)]
    rw [subA_skip _ _ _ (noneAt_of_noPreAt _ _ matchMarker_gate _ (nmFH _))]
    rw [subA_skip _ _ _ (noneAt_of_noPreAt _ _ matchMarker_gate _ nmFS)]
    rw [subA_skip _ _ _ (noneAt_of_noPreAt _ _ matchMarker_gate _ (nmNL _))]
    rw [subA_skip _ _ _ (noneAt_of_noPreAt _ _ matchMarker_gate _ nmC2)]
    rw [subA_match_here _ _ _ _ (by decide) (matchMarker_fire _)]
    rw [subA_stop _ _ _ (noneAt_of_noPreAt _ _ matchMarker_gate _
      (noPreAt_append _ _ _ nmCards nmC3))]
  -- assemble
  simp only [mergeIndex]
  rw [hA]
  simp only [if_true]
  rw [hB]
  simp only [if_true]
  rw [hC, hD]
  simp only [if_true]
  rw [hE]
  -- rearrange into the closed form for `m :: m0 :: rest`
  simp only [docAfter, featuredStory, List.map_cons, List.flatten_cons,
    List.length_cons, List.append_assoc]
  rw [padNL_mid, padFH_mid]

set_option maxRecDepth 4096 in
/-- The first merge: the blank skeleton is bootstrapped, the featured card
is injected into the featured-section wrapper, and the archive card is
prepended to the fresh grid. -/
theorem mergeIndex_base (m : CardMeta) (hm : cleanMeta m) :
    mergeIndex m blankSkeleton = docAfter m [] := by
  have hA : hasSub marker blankSkeleton = false := by decide
  have h1 : subA matchSecMain archREPL blankSkeleton
      = lit "<main class=\"container\">\n    "
        ++ ((secOpen ++ lit "\n    ") ++ archREPL) := by decide
  have h2 : hasMatchA matchFeatured
      (lit "<main class=\"container\">\n    "
        ++ ((secOpen ++ lit "\n    ") ++ archREPL)) = false := by decide
  have h3 : hasMatchA matchFeatSection
      (lit "<main class=\"container\">\n    "
        ++ ((secOpen ++ lit "\n    ") ++ archREPL)) = true := by decide
  have h4 : subA matchFeatSection
      (secOpen ++ lit "\n" ++ featuredStory m ++ lit "\n")
      (lit "<main class=\"container\">\n    "
        ++ ((secOpen ++ lit "\n    ") ++ archREPL))
      = lit "<main class=\"container\">\n    "
        ++ ((secOpen ++ lit "\n" ++ featuredStory m ++ lit "\n") ++ archREPL) := by
    rw [subA_skip _ _ _ (noneAt_of_noPreAt _ _ matchFeatSection_gate _
      (noPreAt_of_win _ _ (by decide)))]
    rw [subA_match_here _ _ _ _ (by decide)
      (matchFeatSection_at (lit "\n    ") archREPL (by decide) (by decide))]
    rw [subA_stop _ _ _ (noneAt_of_noPreAt _ _ matchFeatSection_gate _
      (noPreAt_of_win _ _ (by decide)))]
  have hsplit : archREPL
      = lit "</section>\n\n    <section class=\"story-archive\">\n        <h2 class=\"section-title\">Recent Stories</h2>\n        "
        ++ (marker ++ lit "\n        </div>\n    </section>\n\n</main>") := by decide
  have h5 : hasSub marker
      (lit "<main class=\"container\">\n    "
        ++ ((secOpen ++ lit "\n" ++ featuredStory m ++ lit "\n") ++ archREPL))
      = true := by
    rw [hsplit]
    refine hasSub_append_right _ _ _ ?_
    refine hasSub_append_right _ _ _ ?_
    refine hasSub_append_right _ _ _ ?_
    exact hasSub_here _ _
  have nmFS2 : noPreAt marker (secOpen ++ lit "\n" ++ featuredStory m ++ lit "\n") := by
    simp only [List.append_assoc]
    refine noPreAt_append _ _ _ (noPreAt_of_win _ _ (by decide)) ?_
    refine noPreAt_append _ _ _ (noPreAt_of_win _ _ (by decide)) ?_
    refine noPreAt_append _ _ _ ?_ (noPreAt_of_win _ _ (by decide))
    unfold featuredStory
    rw [List.append_assoc]
    exact noPreAt_append _ _ _ (noPreAt_marker_clean FH (cleanTxt_of_B FH (by decide)))
      (noPreAt_append _ _ _ (noPreAt_marker_fsCore m hm)
        (noPreAt_of_win marker (lit "\n") (by decide)))
  have h6 : subA matchMarker (marker ++ '\n' :: storyCard m)
      (lit "<main class=\"container\">\n    "
        ++ ((secOpen ++ lit "\n" ++ featuredStory m ++ lit "\n") ++ archREPL))
      = lit "<main class=\"container\">\n    "
        ++ ((secOpen ++ lit "\n" ++ featuredStory m ++ lit "\n")
        ++ (lit "</section>\n\n    <section class=\"story-archive\">\n        <h2 class=\"section-title\">Recent Stories</h2>\n        "
        ++ ((marker ++ '\n' :: storyCard m)
        ++ lit "\n        </div>\n    </section>\n\n</main>"))) := by
    rw [hsplit]
    rw [subA_skip _ _ _ (noneAt_of_noPreAt _ _ matchMarker_gate _
      (noPreAt_of_win _ _ (by decide)))]
    rw [subA_skip _ _ _ (noneAt_of_noPreAt _ _ matchMarker_gate _ nmFS2)]
    rw [subA_skip _ _ _ (noneAt_of_noPreAt _ _ matchMarker_gate _
      (noPreAt_of_win _ _ (by decide)))]
    rw [subA_match_here _ _ _ _ (by decide) (matchMarker_fire _)]
    rw [subA_stop _ _ _ (noneAt_of_noPreAt _ _ matchMarker_gate _
      (noPreAt_of_win _ _ (by decide)))]
  simp only [mergeIndex]
  rw [hA]
  simp only [Bool.false_eq_true, if_false]
  rw [h1, h2]
  simp only [Bool.false_eq_true, if_false]
  rw [h3]
  simp only [if_true]
  rw [h4, h5]
  simp only [if_true]
  rw [h6]
  -- fold the concrete pieces into the closed form
  simp only [docAfter, featuredStory, List.map_cons, List.map_nil,
    List.flatten_cons, List.flatten_nil, List.append_nil, List.length_nil]
  rw [show padFH (0 + 1) = FH from by decide]
  rw [show padNL (0 + 2) = lit "\n" ++ lit "\n" from by decide]
  rw [show lit "<main class=\"container\">\n    <section class=\"featured-story\">\n"
    = lit "<main class=\"container\">\n    " ++ (secOpen ++ lit "\n") from by decide]
  simp only [List.append_assoc]

/-- `Nat.digitChar` of a value below ten is a decimal digit character. -/
theorem digitChar_mem (m : Nat) (h : m < 10) : Nat.digitChar m ∈ digitChars := by
  interval_cases m <;> decide

/-- All characters of `Nat.toDigitsCore 10` outputs are decimal digits. -/
theorem toDigitsCore_digits :
    ∀ (fuel m : Nat) (acc : Cs), (∀ c ∈ acc, c ∈ digitChars) →
      ∀ c ∈ Nat.toDigitsCore 10 fuel m acc, c ∈ digitChars := by
  intro fuel
  induction fuel with
  | zero => intro m acc hacc c hc; exact hacc c hc
  | succ fuel ih =>
    intro m acc hacc c hc
    by_cases h0 : m / 10 = 0
    · rw [show Nat.toDigitsCore 10 (fuel + 1) m acc
          = Nat.digitChar (m % 10) :: acc from by simp [Nat.toDigitsCore, h0]] at hc
      rcases List.mem_cons.mp hc with hc | hc
      · exact hc ▸ digitChar_mem _ (Nat.mod_lt _ (by norm_num))
      · exact hacc c hc
    · rw [show Nat.toDigitsCore 10 (fuel + 1) m acc
          = Nat.toDigitsCore 10 fuel (m / 10) (Nat.digitChar (m % 10) :: acc)
          from by simp [Nat.toDigitsCore, h0]] at hc
      refine ih (m / 10) _ ?_ c hc
      intro d hd
      rcases List.mem_cons.mp hd with hd | hd
      · exact hd ▸ digitChar_mem _ (Nat.mod_lt _ (by norm_num))
      · exact hacc d hd

/-- All characters of a decimal representation are decimal digits. -/
theorem repr_data_digits (n : Nat) : ∀ c ∈ (Nat.repr n).data, c ∈ digitChars :=
  toDigitsCore_digits (n + 1) n [] (by intro c hc; cases hc)

/-- A decimal representation is never empty. -/
theorem repr_data_ne_nil (n : Nat) : (Nat.repr n).data ≠ [] := by
  have : ∀ (fuel m : Nat) (acc : Cs), Nat.toDigitsCore 10 (fuel + 1) m acc ≠ [] := by
    intro fuel
    induction fuel with
    | zero =>
      intro m acc
      by_cases h0 : m / 10 = 0 <;> simp [Nat.toDigitsCore, h0]
    | succ fuel ih =>
      intro m acc
      by_cases h0 : m / 10 = 0
      · simp [Nat.toDigitsCore, h0]
      · rw [show Nat.toDigitsCore 10 (fuel + 1 + 1) m acc
            = Nat.toDigitsCore 10 (fuel + 1) (m / 10) (Nat.digitChar (m % 10) :: acc)
            from by simp [Nat.toDigitsCore, h0]]
        exact ih (m / 10) _
  exact this n n []

/-- Digit characters pass untouched through the slug transformations. -/
theorem digit_char_facts (c : Char) (h : c ∈ digitChars) :
    c.toLower = c ∧ slugKeep c = true ∧ pyWs c = false ∧ c ≠ '-' := by
  have h2 : c ∈ ['0', '1', '2', '3', '4', '5', '6', '7', '8', '9'] := by
    rw [show digitChars = ['0', '1', '2', '3', '4', '5', '6', '7', '8', '9']
      from by decide] at h
    exact h
  fin_cases h2 <;> exact ⟨by decide, by decide, by decide, by decide⟩

/-- A list of digit characters is fixed by lower-casing, the slug filter,
and the run collapse (in either scanner state). -/
theorem digit_list_facts (ds : Cs) (h : ∀ c ∈ ds, c ∈ digitChars) :
    ds.map Char.toLower = ds ∧ ds.filter slugKeep = ds ∧
    ∀ b, collapseAux b ds = ds := by
  induction ds with
  | nil => exact ⟨rfl, rfl, fun _ => rfl⟩
  | cons c cs ih =>
    have hc := digit_char_facts c (h c (List.mem_cons_self _ _))
    have ihh := ih (fun d hd => h d (List.mem_cons_of_mem _ hd))
    refine ⟨?_, ?_, ?_⟩
    · simp [hc.1, ihh.1]
    · simp [List.filter_cons, hc.2.1, ihh.2.1]
    · intro b
      have hcond : (pyWs c || c = '-' : Prop) = False := by
        simp [hc.2.2.1, hc.2.2.2]
      simp only [collapseAux]
      rw [if_neg (by simp [hc.2.2.1, hc.2.2.2])]
      rw [ihh.2.2 false]

/-- Collapsing the lower-cased, filtered synthetic-headline prefix. -/
theorem collapse_synth_head (ds : Cs) :
    collapseAux false (lit "vanity fair feature idea " ++ ds)
      = lit "vanity-fair-feature-idea-" ++ collapseAux true ds := by
  rw [show lit "vanity fair feature idea " =
    ['v', 'a', 'n', 'i', 't', 'y', ' ', 'f', 'a', 'i', 'r', ' ', 'f', 'e', 'a',
     't', 'u', 'r', 'e', ' ', 'i', 'd', 'e', 'a', ' '] from by decide]
  rw [show lit "vanity-fair-feature-idea-" =
    ['v', 'a', 'n', 'i', 't', 'y', '-', 'f', 'a', 'i', 'r', '-', 'f', 'e', 'a',
     't', 'u', 'r', 'e', '-', 'i', 'd', 'e', 'a', '-'] from by decide]
  simp [collapseAux, pyWs]

/-- `strip('-')` is the identity when neither end is a hyphen. -/
theorem stripHyphens_no_strip (s : Cs) (a b : Char) (ha : s.head? = some a)
    (hb : s.reverse.head? = some b) (hna : a ≠ '-') (hnb : b ≠ '-') :
    stripHyphens s = s := by
  unfold stripHyphens
  have h1 : s.dropWhile (· = '-') = s := by
    cases s with
    | nil => rfl
    | cons x xs =>
      have hx : x = a := by simpa using ha
      subst hx
      rw [List.dropWhile_cons, if_neg (by simp [hna])]
  have h2 : s.reverse.dropWhile (· = '-') = s.reverse := by
    cases hrv : s.reverse with
    | nil => rfl
    | cons y ys =>
      have hy : y = b := by rw [hrv] at hb; simpa using hb
      subst hy
      rw [List.dropWhile_cons, if_neg (by simp [hnb])]
  rw [h1, h2, List.reverse_reverse]

/-- The cleaned slug of a synthetic fallback headline: the generic constant,
a hyphen, and the (truncated) decimal digits — never the bare generic
constant. -/
theorem cleanedHeadline_synth (ds : Cs) (hne : ds ≠ [])
    (h : ∀ c ∈ ds, c ∈ digitChars) :
    cleanedHeadline (lit "Vanity Fair Feature: Idea " ++ ds)
      = lit "vanity-fair-feature-idea-" ++ ds.take 15 := by
  have hslug : slugOf (lit "Vanity Fair Feature: Idea " ++ ds)
      = lit "vanity-fair-feature-idea-" ++ ds := by
    unfold slugOf
    rw [List.map_append, List.filter_append]
    rw [show ((lit "Vanity Fair Feature: Idea ").map Char.toLower).filter slugKeep
      = lit "vanity fair feature idea " from by decide]
    rw [(digit_list_facts ds h).1, (digit_list_facts ds h).2.1]
    rw [collapse_synth_head, (digit_list_facts ds h).2.2 true]
  unfold cleanedHeadline
  rw [hslug]
  have htake : (lit "vanity-fair-feature-idea-" ++ ds).take 40
      = lit "vanity-fair-feature-idea-" ++ ds.take 15 := by
    rw [List.take_append_eq_append_take]
    rw [show (lit "vanity-fair-feature-idea-").take 40
      = lit "vanity-fair-feature-idea-" from by decide]
    rw [show 40 - (lit "vanity-fair-feature-idea-").length = 15 from by decide]
  rw [htake]
  have htne : ds.take 15 ≠ [] := by
    intro he
    have := congrArg List.length he
    simp only [List.length_take, List.length_nil] at this
    have hd : 0 < ds.length := List.length_pos.mpr hne
    omega
  have htdig : ∀ c ∈ ds.take 15, c ∈ digitChars :=
    fun c hc => h c (List.mem_of_mem_take hc)
  obtain ⟨c, cs', hrev⟩ : ∃ c cs', (ds.take 15).reverse = c :: cs' := by
    rcases hr : (ds.take 15).reverse with _ | ⟨c, cs'⟩
    · exact absurd (List.reverse_eq_nil_iff.mp hr) htne
    · exact ⟨c, cs', rfl⟩
  have hcds : c ∈ ds.take 15 := by
    have : c ∈ (ds.take 15).reverse := by rw [hrev]; exact List.mem_cons_self _ _
    exact List.mem_reverse.mp this
  have hcd : c ≠ '-' := (digit_char_facts c (htdig c hcds)).2.2.2
  refine stripHyphens_no_strip _ 'v' c ?_ ?_ (by decide) hcd
  · rw [show lit "vanity-fair-feature-idea-"
      = 'v' :: lit "anity-fair-feature-idea-" from by decide, List.cons_append]
    rfl
  · rw [List.reverse_append, hrev, List.cons_append]
    rfl

/-- A synthetic fallback headline never passes the generic-slug guard. -/
theorem isGeneric_synth (ds : Cs) (hne : ds ≠ [])
    (h : ∀ c ∈ ds, c ∈ digitChars) :
    isGeneric (cleanedHeadline (lit "Vanity Fair Feature: Idea " ++ ds)) = false := by
  rw [cleanedHeadline_synth ds hne h]
  unfold isGeneric
  have hlen : (lit "vanity-fair-feature-idea-" ++ ds.take 15).length ≥ 26 := by
    rw [List.length_append]
    have : 0 < (ds.take 15).length := by
      rw [List.length_take]
      have hd : 0 < ds.length := List.length_pos.mpr hne
      omega
    rw [show (lit "vanity-fair-feature-idea-").length = 25 from by decide]
    omega
  have h1 : ((lit "vanity-fair-feature-idea-" ++ ds.take 15) == genericSlug) = false := by
    rw [beq_eq_false_iff_ne]
    intro he
    have := congrArg List.length he
    rw [show (genericSlug : Cs).length = 24 from by decide] at this
    omega
  have h2 : (lit "vanity-fair-feature-idea-" ++ ds.take 15).isEmpty = false := by
    rw [List.isEmpty_eq_false_iff_exists_mem]
    exact ⟨'v', by rw [show lit "vanity-fair-feature-idea-"
      = 'v' :: lit "anity-fair-feature-idea-" from by decide]; simp⟩
  rw [h1, h2]
  decide

/-- C7 (amended): the escalation guard is the literal constant
`vanity-fair-feature-idea` (or the empty slug) — not the slug of the actual
synthetic fallback headline, which carries a trailing `-{n}`.  When the
guard does fire the escalation chain follows the claimed order (story-line
scan, then the chosen idea text with its leading `N.` stripped); and a
genuine synthetic fallback headline never escalates. -/
theorem slug_escalation (h story idea : Cs) :
    (isGeneric (cleanedHeadline h) = false →
      chooseSlug h story idea = cleanedHeadline h) ∧
    (isGeneric (cleanedHeadline h) = true →
      ∀ s, storyScanSlug story = some s → isGeneric s = false →
        chooseSlug h story idea = s) ∧
    (isGeneric (cleanedHeadline h) = true → storyScanSlug story = none →
      idea ≠ [] → chooseSlug h story idea = cleanedHeadline (stripLeadNum idea)) ∧
    (isGeneric (cleanedHeadline h) = true → storyScanSlug story = none →
      idea = [] → chooseSlug h story idea = cleanedHeadline h) ∧
    (∀ n : Nat, chooseSlug (lit "Vanity Fair Feature: Idea " ++ (Nat.repr n).data)
        story idea = lit "vanity-fair-feature-idea-" ++ (Nat.repr n).data.take 15) := by
  refine ⟨?_, ?_, ?_, ?_, ?_⟩
  · intro hg
    simp [chooseSlug, hg]
  · intro hg s hs hsg
    simp [chooseSlug, hg, hs, hsg]
  · intro hg hs hi
    cases idea with
    | nil => exact absurd rfl hi
    | cons a l => simp [chooseSlug, hg, hs, List.isEmpty]
  · intro hg hs hi
    subst hi
    simp [chooseSlug, hg, hs, List.isEmpty]
  · intro n
    have hg := isGeneric_synth (Nat.repr n).data (repr_data_ne_nil n)
      (repr_data_digits n)
    simp only [chooseSlug, hg, Bool.false_eq_true, ite_false]
    exact cleanedHeadline_synth _ (repr_data_ne_nil n) (repr_data_digits n)

/-- Witness for `slug_escalation`: the guard fires for an empty slug and the
story-line scan resolves it; and the synthetic headline for idea 3 keeps
its numbered slug. -/
theorem slug_escalation_witness :
    chooseSlug (lit "???")
        (lit "A wonderfully long story line that is definitely long\nmore")
        (lit "1. some idea")
      = lit "a-wonderfully-long-story-line-that-is-de" ∧
    chooseSlug (lit "Vanity Fair Feature: Idea " ++ (Nat.repr 3).data)
        (lit "A wonderfully long story line that is definitely long\nmore")
        (lit "1. some idea")
      = lit "vanity-fair-feature-idea-" ++ (Nat.repr 3).data.take 15 := by
  constructor
  · exact (slug_escalation (lit "???")
      (lit "A wonderfully long story line that is definitely long\nmore")
      (lit "1. some idea")).2.1 (by decide)
      (lit "a-wonderfully-long-story-line-that-is-de") (by decide) (by decide)
  · exact (slug_escalation (lit "???")
      (lit "A wonderfully long story line that is definitely long\nmore")
      (lit "1. some idea")).2.2.2.2 3

/-- C7 counterexample: the headline IS the synthetic fallback headline for
idea 1, so its slug equals the slug of the synthetic fallback headline, yet
the generator does not escalate: the guard compares against the constant
without the `-1` suffix, and the result stays `vanity-fair-feature-idea-1`
instead of the escalated story-line slug. -/
theorem slug_escalation_counterexample :
    cleanedHeadline (lit "Vanity Fair Feature: Idea 1")
      = lit "vanity-fair-feature-idea-1" ∧
    chooseSlug (lit "Vanity Fair Feature: Idea 1")
        (lit "A wonderfully long story line that is definitely long\nmore")
        (lit "1. some idea")
      = lit "vanity-fair-feature-idea-1" ∧
    specEscalatedSlug
        (lit "A wonderfully long story line that is definitely long\nmore")
        (lit "1. some idea")
      = lit "a-wonderfully-long-story-line-that-is-de" ∧
    chooseSlug (lit "Vanity Fair Feature: Idea 1")
        (lit "A wonderfully long story line that is definitely long\nmore")
        (lit "1. some idea")
      ≠ specEscalatedSlug
        (lit "A wonderfully long story line that is definitely long\nmore")
        (lit "1. some idea") := by
  refine ⟨by decide, by decide, by decide, ?_⟩
  intro he
  rw [show chooseSlug (lit "Vanity Fair Feature: Idea 1")
      (lit "A wonderfully long story line that is definitely long\nmore")
      (lit "1. some idea") = lit "vanity-fair-feature-idea-1" from by decide,
    show specEscalatedSlug
      (lit "A wonderfully long story line that is definitely long\nmore")
      (lit "1. some idea")
      = lit "a-wonderfully-long-story-line-that-is-de" from by decide] at he
  exact absurd he (by decide)

/-- Helper: the rendered sequence always has at least one entry. -/
theorem renderedParas_length_pos (ps : List Cs) :
    1 ≤ (renderedParas ps).length := by
  rcases ps with _ | ⟨a, _ | ⟨b, t⟩⟩ <;> simp [renderedParas]

/-- Helper: anchor placement as a function of the paragraph count. -/
theorem anchorIndex_cases (ps : List Cs) :
    anchorIndex ps =
      (if 1 < ps.length then some 1
       else if ps.length = 1 then some 0 else none) := by
  rcases ps with _ | ⟨a, _ | ⟨b, t⟩⟩ <;>
    simp [anchorIndex, renderedParas, List.findIdx?]

/-- C2 (amended): for every input string the rendered paragraph sequence has
length at least 1, and the continue-reading anchor sits at index 1 when the
paragraph list has more than one entry and at index 0 when it has exactly
one; when the paragraph list is empty the placeholder paragraph is rendered
and carries no anchor. -/
theorem formatter_paragraphs_and_anchor (story : Cs) :
    1 ≤ (renderedParas (paragraphsOf story)).length ∧
    anchorIndex (paragraphsOf story) =
      (if 1 < (paragraphsOf story).length then some 1
       else if (paragraphsOf story).length = 1 then some 0 else none) :=
  ⟨renderedParas_length_pos _, anchorIndex_cases _⟩

/-- C2 counterexample: on the empty input the paragraph list is empty, the
formatter renders exactly one (placeholder) paragraph, and no paragraph
carries the anchor — contradicting "the anchor is attached to the paragraph
at index 0 when the sequence has exactly one paragraph". -/
theorem formatter_empty_input_no_anchor :
    paragraphsOf (lit "") = [] ∧
    (renderedParas (paragraphsOf (lit ""))).length = 1 ∧
    anchorIndex (paragraphsOf (lit "")) = none ∧
    storyContent (paragraphsOf (lit "")) = lit "<p>No content available.</p>" := by
  decide

/-- C8 (amended): when the main paragraph pass yields zero paragraphs the
formatter falls back to splitting the PROCESSED story text (stripped, with
announcement and title lines already substituted away) on blank-line
blocks — not the original unstripped text — and when that too is empty it
emits exactly one placeholder paragraph. -/
theorem formatter_fallback_uses_processed_text (story : Cs)
    (h : buildParasLoop (splitNl (processedStory story)) [] [] = []) :
    paragraphsOf story = blankSplit (processedStory story) ∧
    (blankSplit (processedStory story) = [] →
      storyContent (paragraphsOf story) = lit "<p>No content available.</p>") := by
  constructor
  · simp [paragraphsOf, h]
  · intro h2
    simp [paragraphsOf, h, h2, storyContent]

/-- Witness for `formatter_fallback_uses_processed_text` at the empty story. -/
theorem formatter_fallback_witness :
    buildParasLoop (splitNl (processedStory (lit ""))) [] [] = [] ∧
    paragraphsOf (lit "") = blankSplit (processedStory (lit "")) ∧
    storyContent (paragraphsOf (lit "")) = lit "<p>No content available.</p>" := by
  refine ⟨by decide, ?_⟩
  have h := formatter_fallback_uses_processed_text (lit "") (by decide)
  exact ⟨h.1, h.2 (by decide)⟩

/-- C8 counterexample: for the story `"# A\n\n# B"` the main pass yields zero
paragraphs and the fallback produces `["# B"]` (from the processed text),
whereas splitting the ORIGINAL unstripped text on blank-line blocks — what
the claim prescribes — would give `["# A", "# B"]`. -/
theorem formatter_fallback_not_original :
    buildParasLoop (splitNl (processedStory (lit "# A\n\n# B"))) [] [] = [] ∧
    paragraphsOf (lit "# A\n\n# B") = [lit "# B"] ∧
    specOriginalBlankSplit (lit "# A\n\n# B") = [lit "# A", lit "# B"] ∧
    paragraphsOf (lit "# A\n\n# B") ≠ specOriginalBlankSplit (lit "# A\n\n# B") := by
  refine ⟨by decide, by decide, by decide, ?_⟩
  intro h
  simp only [show paragraphsOf (lit "# A\n\n# B") = [lit "# B"] from by decide,
    show specOriginalBlankSplit (lit "# A\n\n# B") = [lit "# A", lit "# B"] from by decide] at h
  exact absurd h (by decide)

theorem countOcc_zero (p a : Cs) (h : noPreAt p a) : countOcc p a = 0 := by
  have h2 := countOcc_skip p a h []
  rw [List.append_nil] at h2
  rw [h2]
  rfl

theorem noPreAt_cardOpen_clean (a : Cs) (h : cleanTxt a) : noPreAt cardOpen a := by
  rw [show cardOpen = '<' :: lit "div class=\"story-card\">" from by decide]
  exact noPreAt_of_clean _ a h

/-- The archive-card opener cannot start inside the featured card. -/
theorem noPreAt_cardOpen_fsCore (m : CardMeta) (hm : cleanMeta m) :
    noPreAt cardOpen (fsCore m) := by
  obtain ⟨ha, hb, hc, hd⟩ := hm
  unfold fsCore
  simp only [List.append_assoc]
  exact noPreAt_append _ _ _ (noPreAt_of_win _ _ (by decide))
    (noPreAt_append _ _ _ (noPreAt_of_win _ _ (by decide))
    (noPreAt_append _ _ _ (noPreAt_cardOpen_clean _ ha)
    (noPreAt_append _ _ _ (noPreAt_of_win _ _ (by decide))
    (noPreAt_append _ _ _ (noPreAt_cardOpen_clean _ hb)
    (noPreAt_append _ _ _ (noPreAt_of_win _ _ (by decide))
    (noPreAt_append _ _ _ (noPreAt_of_win _ _ (by decide))
    (noPreAt_append _ _ _ (noPreAt_cardOpen_clean _ (cleanTxt_shortDesc _ hc))
    (noPreAt_append _ _ _ (noPreAt_of_win _ _ (by decide))
    (noPreAt_append _ _ _ (noPreAt_cardOpen_clean _ hd)
    (noPreAt_append _ _ _ (noPreAt_of_win _ _ (by decide))
      (noPreAt_of_win _ _ (by decide))))))))))))

/-- Exactly one featured-card opener in the closed form. -/
theorem countOcc_featOpener_docAfter (m : CardMeta) (rest : List CardMeta)
    (hm : cleanMeta m) (hrest : ∀ x ∈ rest, cleanMeta x) :
    countOcc featOpener (docAfter m rest) = 1 := by
  obtain ⟨ha, hb, hc, hd⟩ := hm
  have hall : ∀ x ∈ m :: rest, cleanMeta x := by
    intro x hx
    rcases List.mem_cons.mp hx with h | h
    · exact h ▸ ⟨ha, hb, hc, hd⟩
    · exact hrest x h
  simp only [docAfter, fsCore, List.append_assoc]
  rw [countOcc_skip _ _ (noPreAt_of_win _ _ (by decide))]
  rw [countOcc_skip _ _ (noPreAt_featOpener_clean _ (cleanTxt_padFH _))]
  rw [show featOpener = '<' :: lit "div class=\"story-card featured\">" from by decide]
  rw [countOcc_here _ _ _ (noPreAt_of_win _ _ (by decide))]
  rw [show ('<' :: lit "div class=\"story-card featured\">" : Cs) = featOpener from by decide]
  rw [countOcc_zero featOpener _ (by
    refine noPreAt_append _ _ _ (noPreAt_of_win _ _ (by decide)) ?_
    refine noPreAt_append _ _ _ (noPreAt_featOpener_clean _ ha) ?_
    refine noPreAt_append _ _ _ (noPreAt_of_win _ _ (by decide)) ?_
    refine noPreAt_append _ _ _ (noPreAt_featOpener_clean _ hb) ?_
    refine noPreAt_append _ _ _ (noPreAt_of_win _ _ (by decide)) ?_
    refine noPreAt_append _ _ _ (noPreAt_of_win _ _ (by decide)) ?_
    refine noPreAt_append _ _ _ (noPreAt_featOpener_clean _ (cleanTxt_shortDesc _ hc)) ?_
    refine noPreAt_append _ _ _ (noPreAt_of_win _ _ (by decide)) ?_
    refine noPreAt_append _ _ _ (noPreAt_featOpener_clean _ hd) ?_
    refine noPreAt_append _ _ _ (noPreAt_of_win _ _ (by decide)) ?_
    refine noPreAt_append _ _ _ (noPreAt_of_win _ _ (by decide)) ?_
    refine noPreAt_append _ _ _ (noPreAt_featOpener_clean _ (cleanTxt_padNL _)) ?_
    refine noPreAt_append _ _ _ (noPreAt_of_win _ _ (by decide)) ?_
    refine noPreAt_append _ _ _ (noPreAt_of_win _ _ (by decide)) ?_
    exact noPreAt_append _ _ _
      (noPreAt_cards featOpener (m :: rest) hall (Or.inl rfl)
        (by decide) (by decide) (by decide) (by decide) (by decide) (by decide))
      (noPreAt_of_win _ _ (by decide)))]

/-- Exactly one archive marker in the closed form. -/
theorem countOcc_marker_docAfter (m : CardMeta) (rest : List CardMeta)
    (hm : cleanMeta m) (hrest : ∀ x ∈ rest, cleanMeta x) :
    countOcc marker (docAfter m rest) = 1 := by
  have hall : ∀ x ∈ m :: rest, cleanMeta x := by
    intro x hx
    rcases List.mem_cons.mp hx with h | h
    · exact h ▸ hm
    · exact hrest x h
  simp only [docAfter, List.append_assoc]
  rw [countOcc_skip _ _ (noPreAt_of_win _ _ (by decide))]
  rw [countOcc_skip _ _ (noPreAt_marker_clean _ (cleanTxt_padFH _))]
  rw [countOcc_skip _ _ (noPreAt_marker_fsCore m hm)]
  rw [countOcc_skip _ _ (noPreAt_marker_clean _ (cleanTxt_padNL _))]
  rw [countOcc_skip _ _ (noPreAt_of_win _ _ (by decide))]
  rw [show marker = '<' :: lit "div class=\"story-grid\">" from by decide]
  rw [countOcc_here _ _ _ (noPreAt_of_win _ _ (by decide))]
  rw [show ('<' :: lit "div class=\"story-grid\">" : Cs) = marker from by decide]
  rw [countOcc_zero marker _ (noPreAt_append _ _ _
    (noPreAt_cards marker (m :: rest) hall (Or.inr rfl)
      (by decide) (by decide) (by decide) (by decide) (by decide) (by decide))
    (noPreAt_of_win _ _ (by decide)))]

/-- Each archive card contributes exactly one archive-card opener. -/
theorem countOcc_cardOpen_card (x : CardMeta) (hx : cleanMeta x) (X : Cs) :
    countOcc cardOpen (('\n' :: storyCard x) ++ X) = 1 + countOcc cardOpen X := by
  obtain ⟨ha, hb, hc, hd⟩ := hx
  rw [show ('\n' :: storyCard x : Cs) = lit "\n" ++ storyCard x from rfl]
  simp only [storyCard, List.append_assoc]
  rw [show SC1 = lit "\n                "
    ++ (cardOpen ++ lit "\n                    <h3 class=\"story-title\">") from by decide]
  simp only [List.append_assoc]
  rw [countOcc_skip _ _ (noPreAt_of_win _ _ (by decide))]
  rw [countOcc_skip _ _ (noPreAt_of_win _ _ (by decide))]
  rw [show cardOpen = '<' :: lit "div class=\"story-card\">" from by decide]
  rw [countOcc_here _ _ _ (noPreAt_of_win _ _ (by decide))]
  rw [show ('<' :: lit "div class=\"story-card\">" : Cs) = cardOpen from by decide]
  rw [countOcc_skip _ _ (noPreAt_of_win _ _ (by decide))]
  rw [countOcc_skip _ _ (noPreAt_cardOpen_clean _ ha)]
  rw [countOcc_skip _ _ (noPreAt_of_win _ _ (by decide))]
  rw [countOcc_skip _ _ (noPreAt_cardOpen_clean _ hb)]
  rw [countOcc_skip _ _ (noPreAt_of_win _ _ (by decide))]
  rw [countOcc_skip _ _ (noPreAt_cardOpen_clean _ hc)]
  rw [countOcc_skip _ _ (noPreAt_of_win _ _ (by decide))]
  rw [countOcc_skip _ _ (noPreAt_cardOpen_clean _ hd)]
  rw [countOcc_skip _ _ (noPreAt_of_win _ _ (by decide))]

/-- The archive cards contribute one opener per card. -/
theorem countOcc_cardOpen_cards (l : List CardMeta) (hl : ∀ x ∈ l, cleanMeta x)
    (X : Cs) :
    countOcc cardOpen ((l.map (fun x => '\n' :: storyCard x)).flatten ++ X)
      = l.length + countOcc cardOpen X := by
  induction l with
  | nil => simp
  | cons x xs ih =>
    simp only [List.map_cons, List.flatten_cons, List.append_assoc]
    rw [countOcc_cardOpen_card x (hl x (List.mem_cons_self _ _))]
    rw [ih (fun y hy => hl y (List.mem_cons_of_mem _ hy))]
    simp only [List.length_cons]
    omega

/-- Exactly `rest.length + 1` archive-card openers in the closed form. -/
theorem countOcc_cardOpen_docAfter (m : CardMeta) (rest : List CardMeta)
    (hm : cleanMeta m) (hrest : ∀ x ∈ rest, cleanMeta x) :
    countOcc cardOpen (docAfter m rest) = rest.length + 1 := by
  have hall : ∀ x ∈ m :: rest, cleanMeta x := by
    intro x hx
    rcases List.mem_cons.mp hx with h | h
    · exact h ▸ hm
    · exact hrest x h
  simp only [docAfter, List.append_assoc]
  rw [countOcc_skip _ _ (noPreAt_of_win _ _ (by decide))]
  rw [countOcc_skip _ _ (noPreAt_cardOpen_clean _ (cleanTxt_padFH _))]
  rw [countOcc_skip _ _ (noPreAt_cardOpen_fsCore m hm)]
  rw [countOcc_skip _ _ (noPreAt_cardOpen_clean _ (cleanTxt_padNL _))]
  rw [countOcc_skip _ _ (noPreAt_of_win _ _ (by decide))]
  rw [countOcc_skip _ _ (noPreAt_of_win _ _ (by decide))]
  rw [countOcc_cardOpen_cards (m :: rest) hall]
  rw [countOcc_zero cardOpen _ (noPreAt_of_win _ _ (by decide))]
  simp only [List.length_cons]

/-- `cleanMeta` from its decidable form. -/
theorem cleanMeta_of_B (m : CardMeta) (h1 : cleanB m.h = true)
    (h2 : cleanB m.d = true) (h3 : cleanB m.s = true) (h4 : cleanB m.f = true) :
    cleanMeta m :=
  ⟨cleanTxt_of_B _ h1, cleanTxt_of_B _ h2, cleanTxt_of_B _ h3, cleanTxt_of_B _ h4⟩

/-- Folding merges over the blank skeleton yields the closed form for the
reversed (newest-first) history. -/
theorem mergeSeq_rev (rest : List CardMeta) (hrest : ∀ x ∈ rest, cleanMeta x) :
    mergeSeq rest.reverse = docAfterL rest := by
  induction rest with
  | nil => rfl
  | cons m rs ih =>
    rw [List.reverse_cons]
    unfold mergeSeq
    simp only [List.foldl_append, List.foldl_cons, List.foldl_nil]
    show mergeIndex m (mergeSeq rs.reverse) = docAfterL (m :: rs)
    rw [ih (fun x hx => hrest x (List.mem_cons_of_mem _ hx))]
    cases rs with
    | nil => exact mergeIndex_base m (hrest m (List.mem_cons_self _ _))
    | cons r0 rtail =>
      show mergeIndex m (docAfter r0 rtail) = docAfter m (r0 :: rtail)
      exact mergeIndex_step m r0 rtail (hrest m (List.mem_cons_self _ _))
        (hrest r0 (List.mem_cons_of_mem _ (List.mem_cons_self _ _)))
        (fun x hx => hrest x (List.mem_cons_of_mem _ (List.mem_cons_of_mem _ hx)))

/-- C1: starting from the blank skeleton, a nonempty sequence of merges with
markup-free card fields (`hrev` names the newest card `m` and the earlier
ones `rest`, newest first) yields exactly the closed-form document: one
featured card — the newest — and one archive card per merge, newest first;
the featured-card opener occurs exactly once and the archive-card opener
exactly once per merge; and re-running the bootstrap step on any document
already containing the archive marker leaves it unchanged. -/
theorem merge_sequence_invariant (l : List CardMeta) (m : CardMeta)
    (rest : List CardMeta) (hrev : l.reverse = m :: rest)
    (hl : ∀ x ∈ l, cleanMeta x) :
    mergeSeq l = docAfter m rest
    ∧ countOcc featOpener (mergeSeq l) = 1
    ∧ countOcc cardOpen (mergeSeq l) = l.length
    ∧ ∀ doc : Cs, hasSub marker doc = true →
        (if hasSub marker doc then doc else subA matchSecMain archREPL doc) = doc := by
  have hlrev : ∀ x ∈ m :: rest, cleanMeta x := by
    intro x hx
    refine hl x (List.mem_reverse.mp ?_)
    rw [hrev]
    exact hx
  have hm : cleanMeta m := hlrev m (List.mem_cons_self _ _)
  have hrest : ∀ x ∈ rest, cleanMeta x :=
    fun x hx => hlrev x (List.mem_cons_of_mem _ hx)
  have hseq : mergeSeq l = docAfter m rest := by
    have h := mergeSeq_rev (m :: rest) hlrev
    rw [show docAfterL (m :: rest) = docAfter m rest from rfl] at h
    rw [← hrev, List.reverse_reverse] at h
    exact h
  have hlen : l.length = rest.length + 1 := by
    have h := congrArg List.length hrev
    simpa [List.length_reverse] using h
  refine ⟨hseq, ?_, ?_, ?_⟩
  · rw [hseq]
    exact countOcc_featOpener_docAfter m rest hm hrest
  · rw [hseq, hlen]
    exact countOcc_cardOpen_docAfter m rest hm hrest
  · intro doc hdoc
    rw [if_pos hdoc]

/-- C1 witness: two clean merges give the closed form with featured card
`mB`, archive cards `[mB, mA]`, and the exact counts. -/
theorem merge_sequence_invariant_witness :
    mergeSeq [mA, mB] = docAfter mB [mA]
    ∧ countOcc featOpener (mergeSeq [mA, mB]) = 1
    ∧ countOcc cardOpen (mergeSeq [mA, mB]) = 2
    ∧ ∀ doc : Cs, hasSub marker doc = true →
        (if hasSub marker doc then doc else subA matchSecMain archREPL doc) = doc :=
  merge_sequence_invariant [mA, mB] mB [mA] (by decide) (by
    intro x hx
    rcases List.mem_cons.mp hx with h | h
    · exact h ▸ cleanMeta_of_B mA (by decide) (by decide) (by decide) (by decide)
    · rcases List.mem_cons.mp h with h2 | h2
      · exact h2 ▸ cleanMeta_of_B mB (by decide) (by decide) (by decide) (by decide)
      · exact absurd h2 (List.not_mem_nil x))

set_option maxRecDepth 4096 in
/-- C1 counterexample: the claim ranges over arbitrary distinct card
fragments, but a single merge (`N = 1`) of a card whose headline contains
the archive marker already produces TWO archive cards: the global marker
substitution of step 3 also fires inside the featured card's title. -/
theorem merge_sequence_invariant_counterexample :
    countOcc cardOpen (mergeSeq [mbad]) = 2
    ∧ countOcc cardOpen (mergeSeq [mbad]) ≠ 1 := by
  have h0 : mergeSeq [mbad] = mergeIndex mbad blankSkeleton := by
    simp only [mergeSeq, List.foldl_cons, List.foldl_nil]
  have hA : hasSub marker blankSkeleton = false := by decide
  have h1 : subA matchSecMain archREPL blankSkeleton
      = lit "<main class=\"container\">\n    <section class=\"featured-story\">\n    </section>\n\n    <section class=\"story-archive\">\n        <h2 class=\"section-title\">Recent Stories</h2>\n        <div class=\"story-grid\">\n        </div>\n    </section>\n\n</main>" := by
    decide
  have h2 : hasMatchA matchFeatured
      (lit "<main class=\"container\">\n    <section class=\"featured-story\">\n    </section>\n\n    <section class=\"story-archive\">\n        <h2 class=\"section-title\">Recent Stories</h2>\n        <div class=\"story-grid\">\n        </div>\n    </section>\n\n</main>") = false := by
    decide
  have h3 : hasMatchA matchFeatSection
      (lit "<main class=\"container\">\n    <section class=\"featured-story\">\n    </section>\n\n    <section class=\"story-archive\">\n        <h2 class=\"section-title\">Recent Stories</h2>\n        <div class=\"story-grid\">\n        </div>\n    </section>\n\n</main>") = true := by
    decide
  have h4 : subA matchFeatSection (secOpen ++ lit "\n" ++ featuredStory mbad ++ lit "\n")
      (lit "<main class=\"container\">\n    <section class=\"featured-story\">\n    </section>\n\n    <section class=\"story-archive\">\n        <h2 class=\"section-title\">Recent Stories</h2>\n        <div class=\"story-grid\">\n        </div>\n    </section>\n\n</main>")
      = lit "<main class=\"container\">\n    <section class=\"featured-story\">\n\n        <div class=\"story-card featured\">\n            <h2 class=\"story-title\">"
        ++ (marker
        ++ (lit "</h2>\n            <div class=\"story-meta\">\n                <span class=\"story-date\">May 03, 2025</span>\n            </div>\n            <div class=\"story-excerpt\">\n                <p>Bad.</p>\n                <a href=\"stories/x.html#continue-reading\" class=\"read-more\">Continue reading →</a>\n            </div>\n        </div>\n\n</section>\n\n    <section class=\"story-archive\">\n        <h2 class=\"section-title\">Recent Stories</h2>\n        "
        ++ (marker
        ++ lit "\n        </div>\n    </section>\n\n</main>"))) := by
    decide
  have h5 : hasSub marker
      (lit "<main class=\"container\">\n    <section class=\"featured-story\">\n\n        <div class=\"story-card featured\">\n            <h2 class=\"story-title\">"
        ++ (marker
        ++ (lit "</h2>\n            <div class=\"story-meta\">\n                <span class=\"story-date\">May 03, 2025</span>\n            </div>\n            <div class=\"story-excerpt\">\n                <p>Bad.</p>\n                <a href=\"stories/x.html#continue-reading\" class=\"read-more\">Continue reading →</a>\n            </div>\n        </div>\n\n</section>\n\n    <section class=\"story-archive\">\n        <h2 class=\"section-title\">Recent Stories</h2>\n        "
        ++ (marker
        ++ lit "\n        </div>\n    </section>\n\n</main>")))) = true :=
    hasSub_append_right _ _ _ (hasSub_here _ _)
  have h6 : subA matchMarker (marker ++ '\n' :: storyCard mbad)
      (lit "<main class=\"container\">\n    <section class=\"featured-story\">\n\n        <div class=\"story-card featured\">\n            <h2 class=\"story-title\">"
        ++ (marker
        ++ (lit "</h2>\n            <div class=\"story-meta\">\n                <span class=\"story-date\">May 03, 2025</span>\n            </div>\n            <div class=\"story-excerpt\">\n                <p>Bad.</p>\n                <a href=\"stories/x.html#continue-reading\" class=\"read-more\">Continue reading →</a>\n            </div>\n        </div>\n\n</section>\n\n    <section class=\"story-archive\">\n        <h2 class=\"section-title\">Recent Stories</h2>\n        "
        ++ (marker
        ++ lit "\n        </div>\n    </section>\n\n</main>"))))
      = lit "<main class=\"container\">\n    <section class=\"featured-story\">\n\n        <div class=\"story-card featured\">\n            <h2 class=\"story-title\">"
        ++ ((marker ++ '\n' :: storyCard mbad)
        ++ (lit "</h2>\n            <div class=\"story-meta\">\n                <span class=\"story-date\">May 03, 2025</span>\n            </div>\n            <div class=\"story-excerpt\">\n                <p>Bad.</p>\n                <a href=\"stories/x.html#continue-reading\" class=\"read-more\">Continue reading →</a>\n            </div>\n        </div>\n\n</section>\n\n    <section class=\"story-archive\">\n        <h2 class=\"section-title\">Recent Stories</h2>\n        "
        ++ ((marker ++ '\n' :: storyCard mbad)
        ++ lit "\n        </div>\n    </section>\n\n</main>"))) := by
    rw [subA_skip _ _ _ (noneAt_of_noPreAt _ _ matchMarker_gate _
      (noPreAt_of_win _ _ (by decide)))]
    rw [subA_match_here _ _ _ _ (by decide) (matchMarker_fire _)]
    rw [subA_skip _ _ _ (noneAt_of_noPreAt _ _ matchMarker_gate _
      (noPreAt_of_win _ _ (by decide)))]
    rw [subA_match_here _ _ _ _ (by decide) (matchMarker_fire _)]
    rw [subA_stop _ _ _ (noneAt_of_noPreAt _ _ matchMarker_gate _
      (noPreAt_of_win _ _ (by decide)))]
  have hE : mergeIndex mbad blankSkeleton
      = lit "<main class=\"container\">\n    <section class=\"featured-story\">\n\n        <div class=\"story-card featured\">\n            <h2 class=\"story-title\">"
        ++ ((marker ++ '\n' :: storyCard mbad)
        ++ (lit "</h2>\n            <div class=\"story-meta\">\n                <span class=\"story-date\">May 03, 2025</span>\n            </div>\n            <div class=\"story-excerpt\">\n                <p>Bad.</p>\n                <a href=\"stories/x.html#continue-reading\" class=\"read-more\">Continue reading →</a>\n            </div>\n        </div>\n\n</section>\n\n    <section class=\"story-archive\">\n        <h2 class=\"section-title\">Recent Stories</h2>\n        "
        ++ ((marker ++ '\n' :: storyCard mbad)
        ++ lit "\n        </div>\n    </section>\n\n</main>"))) := by
    simp only [mergeIndex]
    rw [hA]
    simp only [Bool.false_eq_true, if_false]
    rw [h1, h2]
    simp only [Bool.false_eq_true, if_false]
    rw [h3]
    simp only [if_true]
    rw [h4, h5]
    simp only [if_true]
    rw [h6]
  have hrep : ∀ X : Cs, countOcc cardOpen ((marker ++ '\n' :: storyCard mbad) ++ X)
      = 1 + countOcc cardOpen X := by
    intro X
    rw [show (marker ++ '\n' :: storyCard mbad : Cs)
        = lit "<div class=\"story-grid\">\n\n                "
          ++ (cardOpen
          ++ lit "\n                    <h3 class=\"story-title\"><div class=\"story-grid\"></h3>\n                    <div class=\"story-meta\">\n                        <span class=\"story-date\">May 03, 2025</span>\n                    </div>\n                    <p class=\"story-excerpt\">Bad....</p>\n                    <a href=\"stories/x.html#continue-reading\" class=\"read-more\">Continue reading →</a>\n                </div>\n")
      from by decide]
    simp only [List.append_assoc]
    rw [countOcc_skip _ _ (noPreAt_of_win _ _ (by decide))]
    rw [show cardOpen = '<' :: lit "div class=\"story-card\">" from by decide]
    rw [countOcc_here _ _ _ (noPreAt_of_win _ _ (by decide))]
    rw [show ('<' :: lit "div class=\"story-card\">" : Cs) = cardOpen from by decide]
    rw [countOcc_skip _ _ (noPreAt_of_win _ _ (by decide))]
  have hc2 : countOcc cardOpen (mergeSeq [mbad]) = 2 := by
    rw [h0, hE]
    rw [countOcc_skip _ _ (noPreAt_of_win _ _ (by decide))]
    rw [hrep]
    rw [countOcc_skip _ _ (noPreAt_of_win _ _ (by decide))]
    rw [hrep]
    rw [countOcc_zero cardOpen _ (noPreAt_of_win _ _ (by decide))]
  refine ⟨hc2, ?_⟩
  rw [hc2]
  decide

/-- C10: a merge of a markup-free card onto a reachable document preserves
the single occurrence of the archive container marker. -/
theorem marker_count_preserved (m m0 : CardMeta) (rest : List CardMeta)
    (hm : cleanMeta m) (hm0 : cleanMeta m0) (hrest : ∀ x ∈ rest, cleanMeta x) :
    countOcc marker (docAfter m0 rest) = 1
    ∧ countOcc marker (mergeIndex m (docAfter m0 rest)) = 1 := by
  have hall : ∀ x ∈ m0 :: rest, cleanMeta x := by
    intro x hx
    rcases List.mem_cons.mp hx with h | h
    · exact h ▸ hm0
    · exact hrest x h
  refine ⟨countOcc_marker_docAfter m0 rest hm0 hrest, ?_⟩
  rw [mergeIndex_step m m0 rest hm hm0 hrest]
  exact countOcc_marker_docAfter m (m0 :: rest) hm hall

/-- C10 witness: merging `mB` onto the one-story document keeps the marker
count at one. -/
theorem marker_count_preserved_witness :
    countOcc marker (docAfter mA []) = 1
    ∧ countOcc marker (mergeIndex mB (docAfter mA [])) = 1 :=
  marker_count_preserved mB mA []
    (cleanMeta_of_B mB (by decide) (by decide) (by decide) (by decide))
    (cleanMeta_of_B mA (by decide) (by decide) (by decide) (by decide))
    (fun x hx => absurd hx (List.not_mem_nil x))

set_option maxRecDepth 2000 in
/-- C10 counterexample: the claim ranges over every document with exactly
one marker occurrence and every merge; a document that is exactly the
marker, merged with a card whose headline contains the marker, ends with
two occurrences — the inserted archive card's title carries the marker. -/
theorem marker_count_preserved_counterexample :
    countOcc marker (marker : Cs) = 1
    ∧ countOcc marker (mergeIndex mbad marker) = 2 := by
  decide

/-- Without a numbered line the collecting loop never starts an idea. -/
theorem ideaLoop_unnumbered (ls : List Cs) (acc : List (Nat × Cs)) :
    (∀ l ∈ ls, numberedLine l = false) → ideaLoop ls none [] acc = acc := by
  induction ls with
  | nil => intro _; rfl
  | cons l ls ih =>
    intro h
    have hl := h l (List.mem_cons_self _ _)
    simp only [ideaLoop, hl, Bool.false_eq_true, if_false]
    exact ih (fun x hx => h x (List.mem_cons_of_mem _ hx))

/-- C9: when no line of the ideas text is numbered, the pipeline reports no
selection and the site state — story files and listing document — is left
unchanged. -/
theorem no_ideas_aborts (ideas story dateStr humanDate : Cs) (st : SiteState)
    (h : ∀ l ∈ ideaLines ideas, numberedLine l = false) :
    runPipeline ideas story dateStr humanDate st = (st, none) := by
  have hempty : ideaList ideas = [] :=
    ideaLoop_unnumbered (ideaLines ideas) [] h
  simp only [runPipeline, extract03, hempty, List.isEmpty_nil, if_true]

/-- C9 witness: an ideas text with bullet lines only aborts the run and
leaves the state untouched. -/
theorem no_ideas_aborts_witness :
    runPipeline (lit "Here are ideas:\n- a cat story\n- a dog story")
      (lit "# A Story\n\nBody.") (lit "20250504") (lit "May 04, 2025")
      { storyNames := [lit "old.html"], index := blankSkeleton }
      = ({ storyNames := [lit "old.html"], index := blankSkeleton }, none) :=
  no_ideas_aborts _ _ _ _ _ (by decide)

end Prestige
